import Mathlib

/-!
# oas2tosca — verification of the schema-resolution and type-materialization engine

Shallow embedding of the core of the `oas2tosca` repository (Python):

* `swagger.py` — version-independent converter (`Swagger` class): visited sets
  `node_types` / `data_types`, the planned-definitions set, recursive data-type
  materialization (`create_data_type_from_schema`,
  `create_data_types_for_properties`), node-type creation
  (`create_node_type_from_schema`), `process_definitions`, and the
  schema-name parsing method `Swagger.parse_schema_name`.
* `swagger2.py` — the module-level `parse_schema_name`, `get_ref`,
  `get_profile_names_from_schema` (dependency collection),
  `plan_data_types_for_properties`.
* `swagger3.py` — the module-level `parse_schema_name`, `get_referenced_schema`,
  and `Swagger3.get_profile_names_from_schema`.
* `profile.py` — `Profile` (dependencies, emitted type records),
  `add_dependency`, `process_keywords_for_string` and its emit helpers, and the
  `$ref` branch of `add_property`.

Modelling conventions:

* Python's parsed YAML/JSON document tree is the inductive type `Json`
  (ordered-key objects as association lists, preserving insertion order, which
  is what `dict` iteration order gives in the source).
* `d[k]` on a dict is `Json.get?` / `lookupStr`; a missing key is `none`, and a
  `try/except KeyError` around a lookup is a `match` on that `Option`.
* Python exceptions that escape a function are modelled by an `Option PyErr`
  component in the result (`none` = normal return).  `except KeyError` catches
  only `PyErr.keyError`; `except Exception` catches every `PyErr`.
* Writes to the profile's output stream are modelled as appended records:
  `Profile.emit_node_type` / `Profile.emit_data_type` append one
  `(kind, schema)` record to the owning profile's record list (one record per
  emitted type definition).  The text-level renderer for string constraints
  (`process_keywords_for_string`) is modelled separately at the granularity of
  individual `out.write` calls.
* The recursive `create_data_type_from_schema` is embedded with an explicit
  recursion-depth budget (`fuel`); exhausting the budget yields `none`.  The
  Python recursion terminates exactly because the `data_types` visited set
  grows, and that argument is replayed here as a fuel-sufficiency theorem.
-/

/-- Python exception classes that are distinguished by the source's
`except` clauses.  `except KeyError` catches only `keyError`;
`except Exception` catches all of them. -/
inductive PyErr where
  | keyError
  | attributeError
  | typeError
  | nameError
deriving DecidableEq, Repr

/-- The parsed OpenAPI/Swagger document tree (`ruamel.yaml` round-trip data):
scalars, arrays, and ordered-key mappings. -/
inductive Json where
  | null
  | bool (b : Bool)
  | num (n : Int)
  | str (s : String)
  | arr (elems : List Json)
  | obj (fields : List (String × Json))

/-- Association-list lookup used for every `d[key]` dictionary access. -/
def lookupStr (key : String) : List (String × Json) → Option Json
  | [] => none
  | (k, v) :: rest => if k = key then some v else lookupStr key rest

/-- `d[key]` on a document node: `some` on a mapping that has the key,
`none` otherwise (a missing key raises `KeyError` in the source; lookups on
non-mapping nodes do not occur on the modelled paths). -/
def Json.get? (j : Json) (key : String) : Option Json :=
  match j with
  | .obj fields => lookupStr key fields
  | _ => none

/-- Python truthiness of a document value (`if x:`): `None`, `False`, `0`,
`""`, `[]` and `{}` are falsy. -/
def Json.truthy : Json → Bool
  | .null => false
  | .bool b => b
  | .num n => n != 0
  | .str s => !(s == "")
  | .arr l => !l.isEmpty
  | .obj l => !l.isEmpty

/-- `j == some_string` for a document value: Python `==` between a document
value and a string literal (`schema['type'] == 'object'`). -/
def Json.isStr (j : Json) (s : String) : Bool :=
  match j with
  | .str t => t == s
  | _ => false

/-- Truthiness of an optional lookup result (`try: x = d[k] except KeyError:
x = None` followed by `if x:`). -/
def optTruthy : Option Json → Bool
  | none => false
  | some j => j.truthy

/-- Python string slicing `s[:2]`: the first at most two characters. -/
def pyPrefix2 (s : String) : String :=
  String.mk (s.data.take 2)

/-- Python `s.split('.')` (single-character separator).  Defined at the
character-list level so that it is kernel-reducible; `pySplitDot_eq_split`
below shows it is exactly `String.split (· == '.')`. -/
def pySplitDot (s : String) : List String :=
  (List.splitOnP (· == '.') s.data).map String.mk

theorem pySplitDot_eq_split (s : String) : s.split (· == '.') = pySplitDot s :=
  String.split_of_valid s _

/-! ## Schema-name parsers

The repository contains three separate name parsers:

* the module-level `parse_schema_name` of `swagger2.py` (lines 846-869),
  textually identical to the one in `profile.py` (lines 843-866);
* the module-level `parse_schema_name` of `swagger3.py` (lines 184-200);
* the method `Swagger.parse_schema_name` of `swagger.py` (lines 392-429),
  textually identical to the one in `oas2tosca/swagger.py` (lines 527-564),
  which first substitutes the schema's `x-swagger-router-model` (when present)
  for the identifier.

All results are `(group/profile, version, kind/name, prefix)` tuples. -/

/-- `parse_schema_name` from `swagger2.py` (= `profile.py`): split on `'.'`;
fewer than 3 segments returns `("", "", schema_name, "")`; otherwise a
second-to-last segment whose first two characters are `v1`/`v2` is the
version. -/
def parse_schema_name (schema_name : String) : String × String × String × String :=
  let split := pySplitDot schema_name
  let length := split.length
  if length < 3 then
    ("", "", schema_name, "")
  else if pyPrefix2 (split.getD (length - 2) "") = "v1"
      ∨ pyPrefix2 (split.getD (length - 2) "") = "v2" then
    (String.intercalate "." (split.take (length - 2)),
     split.getD (length - 2) "",
     split.getD (length - 1) "",
     split.getD (length - 3) "")
  else
    (String.intercalate "." (split.take (length - 1)),
     "",
     split.getD (length - 1) "",
     split.getD (length - 2) "")

/-- `parse_schema_name` from `swagger3.py`: fewer than 2 segments returns
`("", "", schema_name, "")`; otherwise no version detection at all. -/
def swagger3_parse_schema_name (schema_name : String) :
    String × String × String × String :=
  let split := pySplitDot schema_name
  let length := split.length
  if length < 2 then
    ("", "", schema_name, "")
  else
    (String.intercalate "." (split.take (length - 1)),
     "",
     split.getD (length - 1) "",
     split.getD (length - 2) "")

/-- The method `Swagger.parse_schema_name` (`swagger.py` =
`oas2tosca/swagger.py`): substitute `x-swagger-router-model` when present,
then split; 1 segment returns `("", "", model_name, "")`; exactly 2 segments
returns `(first, "", second, first)`; 3 or more segments use the same
version rule as the module-level parser. -/
def swagger_parse_schema_name (schema_name : String) (schema : Json) :
    String × String × String × String :=
  let model_name :=
    match schema.get? "x-swagger-router-model" with
    | some (.str m) => m
    | _ => schema_name
  let split := pySplitDot model_name
  let length := split.length
  if length < 2 then
    ("", "", model_name, "")
  else if length = 2 then
    (split.getD 0 "", "", split.getD 1 "", split.getD 0 "")
  else if pyPrefix2 (split.getD (length - 2) "") = "v1"
      ∨ pyPrefix2 (split.getD (length - 2) "") = "v2" then
    (String.intercalate "." (split.take (length - 2)),
     split.getD (length - 2) "",
     split.getD (length - 1) "",
     split.getD (length - 3) "")
  else
    (String.intercalate "." (split.take (length - 1)),
     "",
     split.getD (length - 1) "",
     split.getD (length - 2) "")

/-! ## Reference resolution -/

/-- `Swagger2.get_ref` (`swagger2.py` lines 723-739, textually identical to
`Profile.get_ref` in `profile.py` lines 730-746).  Python returns `None`
(modelled `none`) when the expression is not a local reference or when
`ref[0]` raises (empty string / non-string value, caught by
`except Exception`); it strips the `#/definitions/` prefix on success, and
returns the expression unchanged when it is local but does not point into
`definitions`. -/
def get_ref (ref : String) : Option String :=
  match ref.data with
  | [] => none
  | c :: _ =>
    if c ≠ '#' then none
    else if "#/definitions/".data.isPrefixOf ref.data then
      some (String.mk (ref.data.drop "#/definitions/".length))
    else
      some ref

/-- `Swagger3.get_referenced_schema` (`swagger3.py` lines 157-177): checks
the leading `#`, requires the `#/components/schemas/` prefix, and looks the
stripped name up under `components.schemas`; every failure returns `None`. -/
def swagger3_get_referenced_schema (data : Json) (ref : String) : Option Json :=
  match ref.data with
  | [] => none
  | c :: _ =>
    if c ≠ '#' then none
    else if !("#/components/schemas/".data.isPrefixOf ref.data) then none
    else
      let schema_name := String.mk (ref.data.drop "#/components/schemas/".length)
      (data.get? "components").bind fun comps =>
        (comps.get? "schemas").bind fun schemas =>
          schemas.get? schema_name

/-! ## Profiles (`profile.py`)

A `Profile` accumulates the dependency mapping and the emitted type
definitions of one output namespace.  `emit_node_type` / `emit_data_type`
write one type definition to the profile's output stream; here each emission
is recorded as one `(kind, schema)` record. -/

structure Profile where
  name : String
  version : String
  /-- the source's `self.prefix` attribute -/
  pfx : String
  dependencies : List (String × String)
  nodeRecords : List (String × Json)
  dataRecords : List (String × Json)

/-- `Profile.__init__` (`profile.py` lines 23-35). -/
def Profile.init (name version pfx : String) : Profile :=
  { name := name, version := version, pfx := pfx,
    dependencies := [], nodeRecords := [], dataRecords := [] }

/-- Generic ordered-dict lookup. -/
def alookup {α : Type} (key : String) : List (String × α) → Option α
  | [] => none
  | (k, v) :: rest => if k = key then some v else alookup key rest

/-- Generic ordered-dict assignment `d[key] = v` (updates in place, appends
a new key at the end, as a Python `dict` does). -/
def aset {α : Type} (key : String) (v : α) : List (String × α) → List (String × α)
  | [] => [(key, v)]
  | (k, w) :: rest => if k = key then (k, v) :: rest else (k, w) :: aset key v rest

/-- `Profile.add_dependency` (`profile.py` lines 38-50): a conflicting second
prefix for an already-recorded dependency is only logged (first-seen prefix
wins); a new dependency is appended. -/
def Profile.add_dependency (p : Profile) (dependency_profile dependency_pfx : String) :
    Profile :=
  match alookup dependency_profile p.dependencies with
  | some _ => p
  | none =>
      { p with dependencies := p.dependencies ++ [(dependency_profile, dependency_pfx)] }

/-- `Profile.emit_node_type` (`profile.py` lines 173-232), as a record
emission: appends one node-type record. -/
def Profile.emit_node_type (p : Profile) (kind : String) (schema : Json) : Profile :=
  { p with nodeRecords := p.nodeRecords ++ [(kind, schema)] }

/-- `Profile.emit_data_type` (`profile.py` lines 235-322), as a record
emission: appends one data-type record. -/
def Profile.emit_data_type (p : Profile) (kind : String) (schema : Json) : Profile :=
  { p with dataRecords := p.dataRecords ++ [(kind, schema)] }

/-! ## Text-level rendering of string constraints (`profile.py`) -/

/-- Python `'%s' % value` for the scalar document values that reach the
constraint emitters (`None` prints as `None`). -/
def pyScalarStr : Option Json → String
  | none => "None"
  | some (.str s) => s
  | some (.num n) => toString n
  | some (.bool true) => "True"
  | some (.bool false) => "False"
  | some .null => "None"
  | some (.arr _) => "[...]"
  | some (.obj _) => "{...}"

/-- `Profile.emit_valid_values` (`profile.py` lines 801-805): one header
write, then one write per enum entry (the source omits the newline on the
entries). -/
def emit_valid_values (indent : String) (enum : List Json) : List String :=
  (indent ++ "- valid_values:\n") ::
    enum.map (fun value => indent ++ "  " ++ "- " ++ pyScalarStr (some value))

/-- `Profile.emit_max_length` (`profile.py` lines 808-809). -/
def emit_max_length (indent : String) (maxLength : Option Json) : String :=
  indent ++ "- max_length: " ++ pyScalarStr maxLength ++ "\n"

/-- `emit_pattern_values` (`profile.py` lines 814-815). -/
def emit_pattern_values (indent : String) (pattern : Option Json) : String :=
  indent ++ "- pattern: \x27" ++ pyScalarStr pattern ++ "\x27\n"

/-- `Profile.process_keywords_for_string` (`profile.py` lines 325-381),
returning the sequence of `out.write` calls it performs.  Source oddities
kept verbatim:

* `emit_min_length` (line 811) is declared without a `self` parameter, so the
  call `self.emit_min_length(indent, minLength)` (line 380) raises
  `TypeError` (3 positional arguments passed to a 2-parameter function);
* the pattern entry is guarded by `if enum:` (line 381), not `if pattern:`,
  so a `pattern` keyword without an `enum` keyword emits nothing, and an
  `enum` keyword without a `pattern` keyword emits `- pattern: 'None'`. -/
def process_keywords_for_string (indent : String) (schema : Json) :
    Except PyErr (List String) :=
  -- 'format' is unsupported for strings: logged only
  let enum := schema.get? "enum"
  let maxLength := schema.get? "maxLength"
  let minLength := schema.get? "minLength"
  let pattern := schema.get? "pattern"
  if optTruthy enum || optTruthy maxLength || optTruthy minLength || optTruthy pattern then
    let header := [indent ++ "constraints:\n"]
    let indent := indent ++ "  "
    let vv := if optTruthy enum then
        emit_valid_values indent (match enum with | some (.arr vs) => vs | _ => [])
      else []
    let ml := if optTruthy maxLength then [emit_max_length indent maxLength] else []
    if optTruthy minLength then
      Except.error .typeError
    else
      let pat := if optTruthy enum then [emit_pattern_values indent pattern] else []
      Except.ok (header ++ vv ++ ml ++ pat)
  else
    Except.ok []

/-- The type-selection part of `Profile.add_property` (`profile.py` lines
660-714), returning the `type:` line it writes (`none` for the
unknown-primitive-type branch, which logs and returns without writing one).
In the `$ref` branch (lines 697-708) the name returned by `get_ref` is fed
to `parse_schema_name`; when `get_ref` returns `None` (non-local reference)
the call `None.split('.')` raises `AttributeError`. -/
def add_property_type_line (p : Profile) (indent : String) (schema : Json) :
    Except PyErr (Option String) :=
  match schema.get? "type" with
  | some t =>
    if t.isStr "object" then .ok (some (indent ++ "type: tosca.datatypes.Root\n"))
    else if t.isStr "string" then .ok (some (indent ++ "type: string\n"))
    else if t.isStr "array" then .ok (some (indent ++ "type: list\n"))
    else if t.isStr "integer" then .ok (some (indent ++ "type: integer\n"))
    else if t.isStr "number" then .ok (some (indent ++ "type: float\n"))
    else if t.isStr "boolean" then .ok (some (indent ++ "type: boolean\n"))
    else if t.isStr "null" then .ok (some (indent ++ "type: null\n"))
    else .ok none
  | none =>
    match schema.get? "$ref" with
    | some (.str r) =>
      match get_ref r with
      | none => .error .attributeError
      | some schema_name =>
        let parsed := parse_schema_name schema_name
        let kind := parsed.2.2.1
        let pfx2 := parsed.2.2.2
        let type_name := if pfx2 != "" && pfx2 != p.pfx then pfx2 ++ ":" ++ kind else kind
        .ok (some (indent ++ "type: " ++ type_name ++ "\n"))
    | some _ => .error .attributeError
    | none => .ok (some (indent ++ "type: string\n"))

/-! ## Converter state (`Swagger.__init__`, `swagger.py` lines 46-60)

`node_types` and `data_types` are the visited sets, `definitions` is the set
of schema names planned for deferred data-type creation
(`self.definitions`), and `profiles` is the namespace → `Profile` mapping
built by dependency collection.  Sets are modelled as duplicate-free lists in
insertion order.  `definitions` holds `Option String` because
`plan_data_types_for_properties` adds the raw result of `get_ref`, which can
be `None`. -/
structure SwaggerState where
  node_types : List String
  data_types : List String
  definitions : List (Option String)
  profiles : List (String × Profile)

/-- Python `set.add`. -/
def sadd {α : Type} [DecidableEq α] (s : List α) (x : α) : List α :=
  if x ∈ s then s else s ++ [x]

/-- Update one profile in the namespace map (Python mutates the shared
`Profile` object in place). -/
def update_profile (g : String) (f : Profile → Profile)
    (profiles : List (String × Profile)) : List (String × Profile) :=
  match alookup g profiles with
  | some p => aset g (f p) profiles
  | none => profiles

/-- Total number of node-type records emitted across all profiles. -/
def totalNodeRecords (st : SwaggerState) : Nat :=
  (st.profiles.map (fun p => p.2.nodeRecords.length)).sum

/-- Total number of data-type records emitted across all profiles. -/
def totalDataRecords (st : SwaggerState) : Nat :=
  (st.profiles.map (fun p => p.2.dataRecords.length)).sum

/-- `Swagger2.plan_data_types_for_properties` (`swagger2.py` lines 573-604),
the implementation used for `self.plan_data_types_for_properties` in
`Swagger.create_node_type_from_schema`: for each property, the first of
`$ref` / `items.$ref` / `additionalProperties.$ref` that is present has its
`get_ref` result added to the planned-definitions set (a `None` result is
added as-is). -/
def plan_data_types_for_properties (st : SwaggerState) (schema : Json) :
    SwaggerState :=
  match schema.get? "properties" with
  | some (.obj props) =>
    { st with
      definitions := props.foldl (fun acc prop =>
        let refv :=
          match (prop.2).get? "$ref" with
          | some rv => some rv
          | none =>
            match ((prop.2).get? "items").bind (fun i => i.get? "$ref") with
            | some rv => some rv
            | none => ((prop.2).get? "additionalProperties").bind (fun a => a.get? "$ref")
        match refv with
        | some (.str r) => sadd acc (get_ref r)
        | some _ => sadd acc none
        | none => acc) st.definitions }
  | _ => st

/-- `Swagger.create_node_type_from_schema` (`swagger.py` lines 244-285):
visited-set check and insertion happen before any validation; a missing or
non-`object` type, or a non-`v1` version, is logged and skipped; otherwise
the properties are planned for deferred data types and one node-type record
is emitted into the profile of the schema's group (a missing profile raises
`KeyError` at `self.profiles[group]`). -/
def create_node_type_from_schema (st : SwaggerState)
    (schema_name : String) (schema : Json) : SwaggerState × Option PyErr :=
  if schema_name ∈ st.node_types then (st, none)
  else
    let st := { st with node_types := st.node_types ++ [schema_name] }
    match schema.get? "type" with
    | none => (st, none)
    | some t =>
      if !(t.isStr "object") then (st, none)
      else
        let parsed := swagger_parse_schema_name schema_name schema
        let group := parsed.1
        let version := parsed.2.1
        let kind := parsed.2.2.1
        if version != "" && version != "v1" then (st, none)
        else
          -- absence of 'x-kubernetes-group-version-kind' is logged only
          let st := plan_data_types_for_properties st schema
          match alookup group st.profiles with
          | none => (st, some .keyError)
          | some profile =>
            ({ st with
               profiles := aset group (profile.emit_node_type kind schema) st.profiles },
             none)

/-- One slot of the fallback chain (`swagger.py` lines 367-388): look up the
referenced definition and recurse into `create_data_type_from_schema`.
The result is `(state, fallthrough?, escaped exception)`: `KeyError`s — from
the missing `$ref` key, from the `self.data['definitions']` lookup
(including lookup with the `None` returned by `get_ref` for a non-local
reference), or raised inside the recursive call — are caught by the slot's
`except KeyError` and produce a fallthrough to the next slot; any other
exception escapes.  `none` is exhaustion of the recursion budget. -/
def attempt_slot (doc : Json)
    (recur : SwaggerState → String → Json → Option (SwaggerState × Option PyErr))
    (st : SwaggerState) (refVal : Option Json) :
    Option (SwaggerState × Bool × Option PyErr) :=
  match refVal with
  | none => some (st, true, none)
  | some rv =>
    match (match rv with | .str r => get_ref r | _ => none) with
    | none => some (st, true, none)
    | some name =>
      match (doc.get? "definitions").bind (fun d => d.get? name) with
      | none => some (st, true, none)
      | some s =>
        match recur st name s with
        | none => none
        | some (st2, some .keyError) => some (st2, true, none)
        | some (st2, e) => some (st2, false, e)

/-- The property loop of `Swagger.create_data_types_for_properties`
(`swagger.py` lines 366-389): per property, try the `$ref` slot, then the
`items.$ref` slot, then the `additionalProperties.$ref` slot; the final
`except KeyError: pass` moves on to the next property, and an escaped
non-`KeyError` exception aborts the loop. -/
def props_loop (doc : Json)
    (recur : SwaggerState → String → Json → Option (SwaggerState × Option PyErr)) :
    SwaggerState → List (String × Json) → Option (SwaggerState × Option PyErr)
  | st, [] => some (st, none)
  | st, (_, pval) :: rest =>
    match attempt_slot doc recur st (pval.get? "$ref") with
    | none => none
    | some r1 =>
      if r1.2.1 then
        match attempt_slot doc recur r1.1 ((pval.get? "items").bind (fun i => i.get? "$ref")) with
        | none => none
        | some r2 =>
          if r2.2.1 then
            match attempt_slot doc recur r2.1
                ((pval.get? "additionalProperties").bind (fun a => a.get? "$ref")) with
            | none => none
            | some r3 =>
              if r3.2.1 then props_loop doc recur r3.1 rest
              else match r3.2.2 with
                   | none => props_loop doc recur r3.1 rest
                   | some e => some (r3.1, some e)
          else match r2.2.2 with
               | none => props_loop doc recur r2.1 rest
               | some e => some (r2.1, some e)
      else match r1.2.2 with
           | none => props_loop doc recur r1.1 rest
           | some e => some (r1.1, some e)

/-- `Swagger.create_data_types_for_properties` (`swagger.py` lines 356-389). -/
def create_data_types_for_properties (doc : Json)
    (recur : SwaggerState → String → Json → Option (SwaggerState × Option PyErr))
    (st : SwaggerState) (schema : Json) : Option (SwaggerState × Option PyErr) :=
  match schema.get? "properties" with
  | none => some (st, none)
  | some (.obj props) => props_loop doc recur st props
  | some _ => some (st, some .attributeError)

/-- One unfolding of `Swagger.create_data_type_from_schema` (`swagger.py`
lines 307-353): visited-set check and insertion happen before any
validation; a bare `$ref` schema or a non-`v1` version is logged and
skipped; the recursive property walk is wrapped in `except Exception` (lines
346-349), so any exception it raises is swallowed; finally one data-type
record is emitted into the profile of the schema's group (a missing profile
raises `KeyError` at `self.profiles[group]`, outside that `try`). -/
def create_data_type_step (doc : Json)
    (recur : SwaggerState → String → Json → Option (SwaggerState × Option PyErr))
    (st : SwaggerState) (schema_name : String) (schema : Json) :
    Option (SwaggerState × Option PyErr) :=
  if schema_name ∈ st.data_types then some (st, none)
  else
    let st := { st with data_types := st.data_types ++ [schema_name] }
    match schema.get? "$ref" with
    | some _ => some (st, none)
    | none =>
      let parsed := swagger_parse_schema_name schema_name schema
      let group := parsed.1
      let version := parsed.2.1
      let kind := parsed.2.2.1
      if version != "" && version != "v1" then some (st, none)
      else
        -- presence of 'x-kubernetes-group-version-kind' is logged only
        match create_data_types_for_properties doc recur st schema with
        | none => none
        | some (st, _e) =>
          match alookup group st.profiles with
          | none => some (st, some .keyError)
          | some profile =>
            some ({ st with
                    profiles := aset group (profile.emit_data_type kind schema) st.profiles },
                  none)

/-- `Swagger.create_data_type_from_schema`, with an explicit recursion-depth
budget; `none` means the budget was exhausted (the fuel-sufficiency theorem
below shows a budget of one more than the number of unvisited definitions
always suffices, which is the source's termination argument). -/
def create_data_type_from_schema (doc : Json) :
    Nat → SwaggerState → String → Json → Option (SwaggerState × Option PyErr)
  | 0, _, _, _ => none
  | fuel + 1, st, schema_name, schema =>
    create_data_type_step doc (create_data_type_from_schema doc fuel) st schema_name schema

/-- The loop of `Swagger.process_definitions` (`swagger.py` lines 288-304)
over the planned-definitions set: a name that no longer resolves is logged
and skipped; after a successful creation, a name that is also in
`node_types` reaches `logger.info("%s is also node type", key)` whose `key`
variable is undefined, raising `NameError`. -/
def process_definitions_loop (doc : Json) (fuel : Nat) :
    SwaggerState → List (Option String) → Option (SwaggerState × Option PyErr)
  | st, [] => some (st, none)
  | st, d :: rest =>
    match d with
    | none => process_definitions_loop doc fuel st rest
    | some name =>
      match (doc.get? "definitions").bind (fun defs => defs.get? name) with
      | none => process_definitions_loop doc fuel st rest
      | some value =>
        match create_data_type_from_schema doc fuel st name value with
        | none => none
        | some (st, some e) => some (st, some e)
        | some (st, none) =>
          if name ∈ st.node_types then some (st, some .nameError)
          else process_definitions_loop doc fuel st rest

/-- `Swagger.process_definitions` (`swagger.py` lines 288-304). -/
def process_definitions (doc : Json) (fuel : Nat) (st : SwaggerState) :
    Option (SwaggerState × Option PyErr) :=
  process_definitions_loop doc fuel st st.definitions

/-! ## Dependency collection, version 2 (`swagger2.py` lines 137-213) -/

/-- One slot of the property loop of `Swagger2.get_profile_names_from_schema`
(lines 188-213): resolve the property's reference with `get_ref`, re-parse
the referenced name, and register a dependency when the groups differ.
The result is `(profiles, error, fallthrough?)`: a missing key raises
`KeyError`, caught by the slot's handler (fallthrough to the next slot).
When `get_ref` returns `None` (non-local reference, or a non-string `$ref`
value), the call `parse_schema_name(None)` executes `None.split('.')` and
raises `AttributeError`, which no enclosing handler catches. -/
def v2_dep_slot (group : String) (profiles : List (String × Profile))
    (refVal : Option Json) :
    List (String × Profile) × Option PyErr × Bool :=
  match refVal with
  | none => (profiles, none, true)
  | some rv =>
    match (match rv with | .str r => get_ref r | _ => none) with
    | none => (profiles, some .attributeError, false)
    | some property_type =>
      let parsed := parse_schema_name property_type
      let property_group := parsed.1
      let ppfx := parsed.2.2.2
      if group ≠ property_group then
        (update_profile group (fun p => p.add_dependency property_group ppfx) profiles,
         none, false)
      else
        (profiles, none, false)

/-- The property loop of `Swagger2.get_profile_names_from_schema`. -/
def v2_props_loop (group : String) :
    List (String × Profile) → List (String × Json) →
    List (String × Profile) × Option PyErr
  | profiles, [] => (profiles, none)
  | profiles, (_, pval) :: rest =>
    let r1 := v2_dep_slot group profiles (pval.get? "$ref")
    if r1.2.2 then
      let r2 := v2_dep_slot group r1.1 ((pval.get? "items").bind (fun i => i.get? "$ref"))
      if r2.2.2 then
        let r3 := v2_dep_slot group r2.1
          ((pval.get? "additionalProperties").bind (fun a => a.get? "$ref"))
        if r3.2.2 then v2_props_loop group r3.1 rest
        else match r3.2.1 with
             | none => v2_props_loop group r3.1 rest
             | some e => (r3.1, some e)
      else match r2.2.1 with
           | none => v2_props_loop group r2.1 rest
           | some e => (r2.1, some e)
    else match r1.2.1 with
         | none => v2_props_loop group r1.1 rest
         | some e => (r1.1, some e)

/-- `Swagger2.get_profile_names_from_schema` (`swagger2.py` lines 160-213):
skip names without a group, apply the `v1` policy filter, obtain-or-create
the group's profile, then scan the properties for cross-group references. -/
def v2_get_profile_names_from_schema (profiles : List (String × Profile))
    (schema_name : String) (schema : Json) :
    List (String × Profile) × Option PyErr :=
  let parsed := parse_schema_name schema_name
  let group := parsed.1
  let version := parsed.2.1
  let pfx := parsed.2.2.2
  if group = "" then (profiles, none)
  else if version != "" && version != "v1" then (profiles, none)
  else
    let profiles :=
      match alookup group profiles with
      | some _ => profiles
      | none => aset group (Profile.init group version pfx) profiles
    match schema.get? "properties" with
    | none => (profiles, none)
    | some (.obj props) => v2_props_loop group profiles props
    | some _ => (profiles, some .attributeError)

/-- `Swagger2.get_profile_names` (`swagger2.py` lines 137-157): start from an
empty profile map and process every schema definition in order; an exception
escaping one schema's processing aborts the scan. -/
def v2_get_profile_names_loop :
    List (String × Profile) → List (String × Json) →
    List (String × Profile) × Option PyErr
  | profiles, [] => (profiles, none)
  | profiles, (n, s) :: rest =>
    match v2_get_profile_names_from_schema profiles n s with
    | (profiles, none) => v2_get_profile_names_loop profiles rest
    | (profiles, some e) => (profiles, some e)

/-- `Swagger2.get_profile_names`, from the document. -/
def v2_get_profile_names (doc : Json) : List (String × Profile) × Option PyErr :=
  match doc.get? "definitions" with
  | none => ([], none)
  | some (.obj defs) => v2_get_profile_names_loop [] defs
  | some _ => ([], some .attributeError)

/-! ## Dependency collection, version 3 (`swagger3.py` lines 79-155) -/

/-- One slot of the property loop of `Swagger3.get_profile_names_from_schema`
(lines 126-154), with result `(profiles, error, fallthrough?)`.  The
dependency guard is the source's own
`if property_profile != property_profile:` — a variable compared to itself.
When `get_referenced_schema` returns `None` (non-local or unresolvable
reference, or a non-string `$ref` value), the subscript
`None['x-swagger-router-model']` raises `TypeError`; a referenced schema
without `x-swagger-router-model` raises `KeyError`, caught by the slot's
`except KeyError` (fallthrough). -/
def v3_dep_slot (data : Json) (profiles : List (String × Profile))
    (profile_name : String) (refVal : Option Json) :
    List (String × Profile) × Option PyErr × Bool :=
  match refVal with
  | none => (profiles, none, true)
  | some rv =>
    match (match rv with | .str r => swagger3_get_referenced_schema data r | _ => none) with
    | none => (profiles, some .typeError, false)
    | some property_schema =>
      match property_schema.get? "x-swagger-router-model" with
      | none => (profiles, none, true)
      | some (.str property_type) =>
        let parsed := swagger3_parse_schema_name property_type
        let property_profile := parsed.1
        let ppfx := parsed.2.2.2
        if property_profile != property_profile then
          (update_profile profile_name
             (fun p => p.add_dependency property_profile ppfx) profiles, none, false)
        else
          (profiles, none, false)
      | some _ => (profiles, some .attributeError, false)

/-- The property loop of `Swagger3.get_profile_names_from_schema`. -/
def v3_props_loop (data : Json) (profile_name : String) :
    List (String × Profile) → List (String × Json) →
    List (String × Profile) × Option PyErr
  | profiles, [] => (profiles, none)
  | profiles, (_, pval) :: rest =>
    let r1 := v3_dep_slot data profiles profile_name (pval.get? "$ref")
    if r1.2.2 then
      let r2 := v3_dep_slot data r1.1 profile_name
        ((pval.get? "items").bind (fun i => i.get? "$ref"))
      if r2.2.2 then
        let r3 := v3_dep_slot data r2.1 profile_name
          ((pval.get? "additionalProperties").bind (fun a => a.get? "$ref"))
        if r3.2.2 then v3_props_loop data profile_name r3.1 rest
        else match r3.2.1 with
             | none => v3_props_loop data profile_name r3.1 rest
             | some e => (r3.1, some e)
      else match r2.2.1 with
           | none => v3_props_loop data profile_name r2.1 rest
           | some e => (r2.1, some e)
    else match r1.2.1 with
         | none => v3_props_loop data profile_name r1.1 rest
         | some e => (r1.1, some e)

/-- `Swagger3.get_profile_names_from_schema` (`swagger3.py` lines 100-155):
a schema without `x-swagger-router-model` is logged and skipped; otherwise
the router model is parsed, the profile is obtained-or-created with
`Profile(profile_name, "", prefix)`, and the properties are scanned. -/
def v3_get_profile_names_from_schema (data : Json)
    (profiles : List (String × Profile)) (_name : String) (schema : Json) :
    List (String × Profile) × Option PyErr :=
  match schema.get? "x-swagger-router-model" with
  | none => (profiles, none)
  | some (.str schema_name) =>
    let parsed := swagger3_parse_schema_name schema_name
    let profile_name := parsed.1
    let pfx := parsed.2.2.2
    let profiles :=
      match alookup profile_name profiles with
      | some _ => profiles
      | none => aset profile_name (Profile.init profile_name "" pfx) profiles
    match schema.get? "properties" with
    | none => (profiles, none)
    | some (.obj props) => v3_props_loop data profile_name profiles props
    | some _ => (profiles, some .attributeError)
  | some _ => (profiles, some .attributeError)

/-- `Swagger3.get_profile_names` (`swagger3.py` lines 79-97): start from an
empty profile map and process every schema under `components.schemas`. -/
def v3_get_profile_names_loop (data : Json) :
    List (String × Profile) → List (String × Json) →
    List (String × Profile) × Option PyErr
  | profiles, [] => (profiles, none)
  | profiles, (n, s) :: rest =>
    match v3_get_profile_names_from_schema data profiles n s with
    | (profiles, none) => v3_get_profile_names_loop data profiles rest
    | (profiles, some e) => (profiles, some e)

/-- `Swagger3.get_profile_names`, from the document. -/
def v3_get_profile_names (data : Json) : List (String × Profile) × Option PyErr :=
  match (data.get? "components").bind (fun c => c.get? "schemas") with
  | none => ([], none)
  | some (.obj schemas) => v3_get_profile_names_loop data [] schemas
  | some _ => ([], some .attributeError)

/-! ## Statement helpers and cyclic-document family -/

/-- Number of data-type records with the given kind in the given profile. -/
def countDataRecords (st : SwaggerState) (g k : String) : Nat :=
  match alookup g st.profiles with
  | some p => (p.dataRecords.filter (fun r => r.1 == k)).length
  | none => 0

/-- Everything of a profile except its data-type records (used to state that
data-type materialization changes nothing else). -/
def profileExceptData (p : Profile) :
    String × String × String × List (String × String) × List (String × Json) :=
  (p.name, p.version, p.pfx, p.dependencies, p.nodeRecords)

/-- The profile map with the data-type records erased. -/
def profilesExceptData (st : SwaggerState) :
    List (String × (String × String × String × List (String × String) × List (String × Json))) :=
  st.profiles.map (fun gp => (gp.1, profileExceptData gp.2))

/-- The invariant of claim C3's second half: every entry of a visited set
accounts for at most one emitted record of the corresponding kind. -/
def recordsBounded (st : SwaggerState) : Prop :=
  totalNodeRecords st ≤ st.node_types.length ∧
  totalDataRecords st ≤ st.data_types.length

/-- Which of the three reference slots a property uses. -/
inductive RefSlot where
  | direct
  | items
  | addProps

/-- A local `$ref` property value pointing at a definition. -/
def ref_json (target : String) : Json :=
  Json.obj [("$ref", Json.str ("#/definitions/" ++ target))]

/-- A property schema referencing `target` through the given slot. -/
def slot_schema : RefSlot → String → Json
  | .direct, t => ref_json t
  | .items, t => Json.obj [("items", ref_json t)]
  | .addProps, t => Json.obj [("additionalProperties", ref_json t)]

/-- One member of a reference cycle: an object schema with a single property
(named `pname`) that references `target` through `slot`. -/
def cycle_schema (slot : RefSlot) (pname : String) (target : String) : Json :=
  Json.obj [("type", Json.str "object"),
            ("properties", Json.obj [(pname, slot_schema slot target)])]

/-- A cycle entry: schema name, property name, reference slot. -/
abbrev CycleEntry := String × String × RefSlot

/-- The schema name the given entry references: the next entry's name, or
`first` (the cycle head) when it is the last entry. -/
def chain_target (first : String) (rest : List CycleEntry) : String :=
  match rest with
  | [] => first
  | e2 :: _ => e2.1

/-- Each entry paired with the name its schema references. -/
def chain_pairs (first : String) : List CycleEntry → List (CycleEntry × String)
  | [] => []
  | e :: rest => (e, chain_target first rest) :: chain_pairs first rest

/-- The schema definitions of a cyclic document: each entry's schema
references the next entry's name, and the last references the first. -/
def cycle_defs (entries : List CycleEntry) : List (String × Json) :=
  (chain_pairs (match entries with | [] => "" | e :: _ => e.1) entries).map
    (fun p => (p.1.1, cycle_schema p.1.2.2 p.1.2.1 p.2))

/-- A document whose `definitions` section is exactly a reference cycle. -/
def cycle_doc (entries : List CycleEntry) : Json :=
  Json.obj [("definitions", Json.obj (cycle_defs entries))]

/-- The `(group, version, kind, prefix)` tuple of a cycle schema's name, as
the materializer parses it (the cycle schemas carry no router model, so the
method parser only sees the name). -/
def parsedName (n : String) : String × String × String × String :=
  swagger_parse_schema_name n (Json.obj [])

/-- Everything data-type materialization preserves or can only grow:
the visited set grows by appending, everything except the emitted data-type
records is unchanged, and the number of emitted data records grows at most
as fast as the visited set. -/
def DataFrame (st st' : SwaggerState) : Prop :=
  st.data_types <+: st'.data_types ∧
  st'.node_types = st.node_types ∧
  st'.definitions = st.definitions ∧
  profilesExceptData st' = profilesExceptData st ∧
  totalDataRecords st' + st.data_types.length
    ≤ totalDataRecords st + st'.data_types.length

/-! ## Termination measure: unvisited definition keys -/

def defKeys (doc : Json) : List String :=
  match doc.get? "definitions" with
  | some (.obj defs) => defs.map (fun d => d.1)
  | _ => []

def unvisitedDefs (doc : Json) (st : SwaggerState) : Nat :=
  (defKeys doc).countP (fun k => decide (k ∉ st.data_types))

/-! ## Concrete fixtures -/

def self_ref_schema : Json :=
  Json.obj [("type", Json.str "object"),
            ("properties", Json.obj [("a", Json.obj [("$ref", Json.str "#/definitions/A")])])]

def self_ref_doc : Json :=
  Json.obj [("definitions", Json.obj [("A", self_ref_schema)])]

def c3_start : SwaggerState :=
  ⟨[], [], [], [("", Profile.init "" "" "")]⟩

def c3_mid : SwaggerState :=
  ⟨["A"], [], [some "A"],
   [("", (Profile.init "" "" "").emit_node_type "A" self_ref_schema)]⟩

def c3_final : SwaggerState :=
  ⟨["A"], ["A"], [some "A"],
   [("", ((Profile.init "" "" "").emit_node_type "A" self_ref_schema).emit_data_type
       "A" self_ref_schema)]⟩

def c2_doc : Json :=
  cycle_doc [("p.v2.A", "b", RefSlot.direct), ("p.v2.B", "a", RefSlot.direct)]

def c2_start : SwaggerState :=
  ⟨[], [], [], [("p", Profile.init "p" "" "p")]⟩

def c2_sA : Json :=
  cycle_schema RefSlot.direct "b" "p.v2.B"

/-! # Theorems -/

/-! ## Helper lemmas -/

theorem mem_aset {α : Type} (k : String) (v : α) :
    ∀ (l : List (String × α)) (x : String × α), x ∈ aset k v l → x = (k, v) ∨ x ∈ l := by
  intro l
  induction l with
  | nil =>
    intro x hx
    simp only [aset, List.mem_singleton] at hx
    exact Or.inl hx
  | cons hd tl ih =>
    intro x hx
    rcases hd with ⟨k1, w⟩
    simp only [aset] at hx
    split at hx
    · rename_i heq
      rcases List.mem_cons.mp hx with h1 | h1
      · exact Or.inl (by rw [h1, heq])
      · exact Or.inr (List.mem_cons_of_mem _ h1)
    · rcases List.mem_cons.mp hx with h1 | h1
      · exact Or.inr (h1 ▸ List.mem_cons_self _ _)
      · rcases ih x h1 with h2 | h2
        · exact Or.inl h2
        · exact Or.inr (List.mem_cons_of_mem _ h2)

theorem v3_dep_slot_profiles (data : Json) (profiles : List (String × Profile))
    (pn : String) (rv : Option Json) :
    (v3_dep_slot data profiles pn rv).1 = profiles := by
  unfold v3_dep_slot
  split
  · rfl
  · split
    · rfl
    · split
      · rfl
      · simp
      · rfl

theorem v3_props_loop_profiles (data : Json) (pn : String) :
    ∀ (props : List (String × Json)) (profiles : List (String × Profile)),
      (v3_props_loop data pn profiles props).1 = profiles := by
  intro props
  induction props with
  | nil => intro profiles; rfl
  | cons hd tl ih =>
    rcases hd with ⟨pname, pval⟩
    intro profiles
    simp only [v3_props_loop]
    rw [v3_dep_slot_profiles data profiles pn (pval.get? "$ref")]
    rw [v3_dep_slot_profiles data profiles pn
      ((pval.get? "items").bind (fun i => i.get? "$ref"))]
    rw [v3_dep_slot_profiles data profiles pn
      ((pval.get? "additionalProperties").bind (fun a => a.get? "$ref"))]
    repeat' split
    all_goals first | exact ih profiles | rfl

theorem v3_step_profiles_shape (data : Json) (profiles : List (String × Profile))
    (n : String) (s : Json) :
    (v3_get_profile_names_from_schema data profiles n s).1 = profiles ∨
    ∃ pn pfx, (v3_get_profile_names_from_schema data profiles n s).1
      = aset pn (Profile.init pn "" pfx) profiles := by
  unfold v3_get_profile_names_from_schema
  split
  · exact Or.inl rfl
  · rename_i schema_name heq
    dsimp only
    split
    · split
      · exact Or.inl rfl
      · exact Or.inr ⟨_, _, rfl⟩
    · rw [v3_props_loop_profiles]
      split
      · exact Or.inl rfl
      · exact Or.inr ⟨_, _, rfl⟩
    · split
      · exact Or.inl rfl
      · exact Or.inr ⟨_, _, rfl⟩
  · exact Or.inl rfl

/-- C4 helper: the v3 schema scan preserves empty dependency mappings. -/
theorem v3_loop_deps_empty (data : Json) :
    ∀ (schemas : List (String × Json)) (profiles : List (String × Profile)),
      (∀ gp ∈ profiles, gp.2.dependencies = []) →
      ∀ gp ∈ (v3_get_profile_names_loop data profiles schemas).1,
        gp.2.dependencies = [] := by
  intro schemas
  induction schemas with
  | nil => intro profiles h gp hgp; exact h gp hgp
  | cons hd tl ih =>
    intro profiles h gp hgp
    have hnext : ∀ gp ∈ (v3_get_profile_names_from_schema data profiles hd.1 hd.2).1,
        gp.2.dependencies = [] := by
      rcases v3_step_profiles_shape data profiles hd.1 hd.2 with hs | ⟨pn, pfx, hs⟩
      · rw [hs]; exact h
      · rw [hs]
        intro x hx
        rcases mem_aset _ _ _ _ hx with h1 | h1
        · rw [h1]; rfl
        · exact h x h1
    simp only [v3_get_profile_names_loop] at hgp
    rcases hstep : v3_get_profile_names_from_schema data profiles hd.1 hd.2 with ⟨p', e'⟩
    rw [hstep] at hnext hgp
    cases e' with
    | none => exact ih p' hnext gp hgp
    | some e => exact hnext gp hgp

/-- C4 (confirmed): for every version-3 input document, dependency
collection registers no cross-namespace dependency: the guard before
`add_dependency` in `Swagger3.get_profile_names_from_schema` compares
`property_profile` to itself and is never true, so after the scan has run
over all schemas the dependency mapping of every created `Profile` is
empty. -/
theorem c4_v3_dependencies_always_empty (data : Json) :
    ∀ gp ∈ (v3_get_profile_names data).1, gp.2.dependencies = [] := by
  intro gp hgp
  unfold v3_get_profile_names at hgp
  rcases hs : (data.get? "components").bind (fun c => c.get? "schemas") with _ | sv
  · rw [hs] at hgp
    simp at hgp
  · rw [hs] at hgp
    cases sv with
    | obj schemas =>
      exact v3_loop_deps_empty data schemas [] (by intro x hx; simp at hx) gp hgp
    | null => simp at hgp
    | bool b => simp at hgp
    | num n => simp at hgp
    | str s => simp at hgp
    | arr l => simp at hgp

/-- Witness for C4 at a concrete version-3 document: one schema with a
router model and a `$ref` property to a schema of another namespace; the
created profile is in the result and (by the theorem) its dependency
mapping is empty. -/
theorem c4_witness :
    ("pkg.v1", Profile.init "pkg.v1" "" "v1") ∈ (v3_get_profile_names (Json.obj
      [("components", Json.obj [("schemas", Json.obj
        [("Pod", Json.obj
          [("x-swagger-router-model", Json.str "pkg.v1.Pod"),
           ("properties", Json.obj
             [("spec", Json.obj [("$ref", Json.str "#/components/schemas/Spec")])])]),
         ("Spec", Json.obj
           [("x-swagger-router-model", Json.str "other.v1.Spec")])])])])).1 ∧
    (Profile.init "pkg.v1" "" "v1").dependencies = [] := by
  have hm : ("pkg.v1", Profile.init "pkg.v1" "" "v1") ∈ (v3_get_profile_names (Json.obj
      [("components", Json.obj [("schemas", Json.obj
        [("Pod", Json.obj
          [("x-swagger-router-model", Json.str "pkg.v1.Pod"),
           ("properties", Json.obj
             [("spec", Json.obj [("$ref", Json.str "#/components/schemas/Spec")])])]),
         ("Spec", Json.obj
           [("x-swagger-router-model", Json.str "other.v1.Spec")])])])])).1 := by
    show ("pkg.v1", Profile.init "pkg.v1" "" "v1") ∈
      [("pkg.v1", Profile.init "pkg.v1" "" "v1"), ("other.v1", Profile.init "other.v1" "" "v1")]
    exact List.mem_cons_self _ _
  exact ⟨hm, c4_v3_dependencies_always_empty _ _ hm⟩
theorem string_intercalate_go_data (s : String) :
    ∀ (as : List String) (acc : String),
      (String.intercalate.go acc s as).data
        = acc.data ++ (as.map (fun a => s.data ++ a.data)).flatten := by
  intro as
  induction as with
  | nil => intro acc; simp [String.intercalate.go]
  | cons a t ih =>
    intro acc
    simp [String.intercalate.go, ih, String.data_append, List.append_assoc]

theorem list_intercalate_cons {α : Type} (sep : List α) :
    ∀ (xs : List (List α)) (x : List α),
      List.intercalate sep (x :: xs) = x ++ (xs.map (fun y => sep ++ y)).flatten := by
  intro xs
  induction xs with
  | nil => intro x; simp [List.intercalate, List.intersperse]
  | cons y t ih =>
    intro x
    have hy := ih y
    simp only [List.intercalate, List.intersperse] at hy ⊢
    cases t with
    | nil => simp [List.intercalate, List.intersperse]
    | cons z t2 =>
      simp only [List.flatten_cons, List.map_cons] at hy ⊢
      rw [hy]
      simp [List.append_assoc]

theorem data_intercalate (sep : String) :
    ∀ l : List String, (String.intercalate sep l).data
      = List.intercalate sep.data (l.map String.data) := by
  intro l
  cases l with
  | nil => rfl
  | cons a as =>
    show (String.intercalate.go a sep as).data = _
    rw [string_intercalate_go_data, List.map_cons, list_intercalate_cons]
    rw [List.map_map]
    rfl

theorem intercalate_append_one {α : Type} (sep : List α) (A : List (List α))
    (hA : A ≠ []) (b : List α) :
    List.intercalate sep (A ++ [b]) = List.intercalate sep A ++ sep ++ b := by
  cases A with
  | nil => exact absurd rfl hA
  | cons x xs =>
    rw [List.cons_append, list_intercalate_cons, list_intercalate_cons]
    simp [List.append_assoc]

theorem splitOnP_sep_not_mem {α : Type} (p : α → Bool) :
    ∀ (xs : List α) (l : List α), l ∈ List.splitOnP p xs → ∀ c ∈ l, ¬ p c := by
  intro xs
  induction xs with
  | nil =>
    intro l hl c hc
    rw [List.splitOnP_nil] at hl
    rcases List.mem_singleton.mp hl with h
    subst h
    simp at hc
  | cons x t ih =>
    intro l hl c hc
    rw [List.splitOnP_cons] at hl
    by_cases hx : p x
    · rw [if_pos hx] at hl
      rcases List.mem_cons.mp hl with h1 | h1
      · subst h1; simp at hc
      · exact ih l h1 c hc
    · rw [if_neg hx] at hl
      obtain ⟨hd, tl, hsp⟩ := List.exists_cons_of_ne_nil (List.splitOnP_ne_nil p t)
      rw [hsp] at hl
      simp only [List.modifyHead] at hl
      rcases List.mem_cons.mp hl with h1 | h1
      · subst h1
        rcases List.mem_cons.mp hc with h2 | h2
        · subst h2; simpa using hx
        · exact ih hd (hsp ▸ List.mem_cons_self _ _) c h2
      · exact ih l (hsp ▸ List.mem_cons_of_mem _ h1) c hc

/-- Re-splitting a dot-join: if a string's characters are the `'.'`-intercalation
of segments that contain no dots, its `split('.')` recovers the segments. -/
theorem pySplitDot_of_data_intercalate (s : String) (L : List (List Char))
    (hdata : s.data = List.intercalate ['.'] L) (hL : L ≠ [])
    (hc : ∀ l ∈ L, '.' ∉ l) :
    pySplitDot s = L.map String.mk := by
  unfold pySplitDot
  rw [hdata]
  have h := List.splitOn_intercalate L '.' hc hL
  simp only [List.splitOn] at h
  rw [h]

/-- C6 counterexample: the module-level `parse_schema_name`
(`swagger2.py` line 846 = `profile.py` line 843) does not return
`(first, "", second, first)` on a 2-segment identifier — it returns
`("", "", identifier, "")` because its short-circuit branch tests
`length < 3`, not `length < 2`. -/
theorem c6_counterexample :
    (pySplitDot "a.b").length = 2 ∧
    parse_schema_name "a.b" ≠ ("a", "", "b", "a") ∧
    parse_schema_name "a.b" = ("", "", "a.b", "") := by
  refine ⟨by decide, ?_, by decide⟩
  intro h
  have : ("" : String) = "a" := congrArg (fun t => t.1) h
  simp at this

/-- C6 (amended): the method `Swagger.parse_schema_name` follows the claimed
rules — `("", "", identifier, "")` below 2 segments and
`(first, "", second, first)` at exactly 2 segments — while the module-level
`parse_schema_name` of `swagger2.py` / `profile.py` returns
`("", "", identifier, "")` for every identifier with fewer than 3 segments,
including 2-segment ones. -/
theorem c6_parse_small_segments :
    (∀ (s : String) (schema : Json),
      schema.get? "x-swagger-router-model" = none →
      ((pySplitDot s).length < 2 → swagger_parse_schema_name s schema = ("", "", s, "")) ∧
      (∀ a b, pySplitDot s = [a, b] → swagger_parse_schema_name s schema = (a, "", b, a))) ∧
    (∀ s : String, (pySplitDot s).length < 3 → parse_schema_name s = ("", "", s, "")) := by
  constructor
  · intro s schema hrouter
    constructor
    · intro hlen
      unfold swagger_parse_schema_name
      rw [hrouter]
      exact if_pos hlen
    · intro a b hsplit
      unfold swagger_parse_schema_name
      rw [hrouter]
      simp only [hsplit]
      norm_num
  · intro s hlen
    unfold parse_schema_name
    exact if_pos hlen

/-- Witness for the C6 amendment at concrete identifiers. -/
theorem c6_witness :
    swagger_parse_schema_name "a.b" (Json.obj []) = ("a", "", "b", "a") ∧
    swagger_parse_schema_name "plain" (Json.obj []) = ("", "", "plain", "") ∧
    parse_schema_name "a.b" = ("", "", "a.b", "") := by
  refine ⟨(c6_parse_small_segments.1 "a.b" (Json.obj []) rfl).2 "a" "b" (by decide), ?_, ?_⟩
  · exact (c6_parse_small_segments.1 "plain" (Json.obj []) rfl).1 (by decide)
  · exact c6_parse_small_segments.2 "a.b" (by decide)

theorem parse_ge3_v (s : String) (h3 : 3 ≤ (pySplitDot s).length)
    (hv : pyPrefix2 ((pySplitDot s).getD ((pySplitDot s).length - 2) "") = "v1"
        ∨ pyPrefix2 ((pySplitDot s).getD ((pySplitDot s).length - 2) "") = "v2") :
    parse_schema_name s =
      (String.intercalate "." ((pySplitDot s).take ((pySplitDot s).length - 2)),
       (pySplitDot s).getD ((pySplitDot s).length - 2) "",
       (pySplitDot s).getD ((pySplitDot s).length - 1) "",
       (pySplitDot s).getD ((pySplitDot s).length - 3) "") := by
  unfold parse_schema_name
  rw [if_neg (by omega), if_pos hv]

theorem swagger_parse_eq_module (s : String) (schema : Json)
    (hrouter : schema.get? "x-swagger-router-model" = none)
    (h3 : 3 ≤ (pySplitDot s).length) :
    swagger_parse_schema_name s schema = parse_schema_name s := by
  unfold swagger_parse_schema_name parse_schema_name
  rw [hrouter]
  dsimp only
  rw [if_neg (by omega : ¬ (pySplitDot s).length < 2),
      if_neg (by omega : ¬ (pySplitDot s).length = 2),
      if_neg (by omega : ¬ (pySplitDot s).length < 3)]

theorem pySplitDot_rejoin (s : String) (h3 : 3 ≤ (pySplitDot s).length) :
    pySplitDot (String.intercalate "." ((pySplitDot s).take ((pySplitDot s).length - 2))
        ++ "." ++ (pySplitDot s).getD ((pySplitDot s).length - 2) ""
        ++ "." ++ (pySplitDot s).getD ((pySplitDot s).length - 1) "")
      = pySplitDot s := by
  have hsplit : pySplitDot s = (List.splitOnP (· == '.') s.data).map String.mk := rfl
  set L := List.splitOnP (· == '.') s.data with hLdef
  have hlen : (pySplitDot s).length = L.length := by rw [hsplit]; simp
  set n := L.length with hndef
  rw [hlen] at h3 ⊢
  have hb2 : n - 2 < L.length := by omega
  have hb1 : n - 1 < L.length := by omega
  have e2 : (pySplitDot s).getD (n - 2) "" = String.mk (L[n - 2]) := by
    rw [hsplit, List.getD_eq_getElem _ _ (by simpa using hb2), List.getElem_map]
  have e1 : (pySplitDot s).getD (n - 1) "" = String.mk (L[n - 1]) := by
    rw [hsplit, List.getD_eq_getElem _ _ (by simpa using hb1), List.getElem_map]
  have etake : ((pySplitDot s).take (n - 2)).map String.data = L.take (n - 2) := by
    rw [hsplit, ← List.map_take, List.map_map]
    have hid : (String.data ∘ String.mk) = (fun l : List Char => l) := rfl
    rw [hid, List.map_id']
  rw [e2, e1]
  have hne : L.take (n - 2) ≠ [] := by
    have hlt : (L.take (n - 2)).length = n - 2 := by
      rw [List.length_take]
      omega
    intro hnil
    rw [hnil] at hlt
    simp at hlt
    omega
  have hLsplit : (L.take (n - 2) ++ [L[n - 2]]) ++ [L[n - 1]] = L := by
    have ha1 : n - 2 + 1 = n - 1 := by omega
    have ha2 : n - 1 + 1 = n := by omega
    have d1 : L.drop (n - 2) = L[n - 2] :: L.drop (n - 1) := by
      rw [List.drop_eq_getElem_cons hb2, ha1]
    have d2 : L.drop (n - 1) = L[n - 1] :: L.drop n := by
      rw [List.drop_eq_getElem_cons hb1, ha2]
    have d3 : L.drop n = [] := List.drop_eq_nil_of_le (by omega)
    rw [List.append_assoc]
    have hmid : [L[n - 2]] ++ [L[n - 1]] = L.drop (n - 2) := by
      rw [d1, d2, d3]
      rfl
    rw [hmid, List.take_append_drop]
  have hdata : (String.intercalate "." ((pySplitDot s).take (n - 2))
      ++ "." ++ String.mk (L[n - 2]) ++ "." ++ String.mk (L[n - 1])).data
      = List.intercalate ['.'] L := by
    simp only [String.data_append, data_intercalate, etake]
    have i1 := intercalate_append_one ['.'] (L.take (n - 2)) hne (L[n - 2])
    have hne2 : L.take (n - 2) ++ [L[n - 2]] ≠ [] := by
      intro hx
      rcases List.append_eq_nil.mp hx with ⟨h1x, h2x⟩
      exact List.cons_ne_nil _ _ h2x
    have i2 := intercalate_append_one ['.'] (L.take (n - 2) ++ [L[n - 2]]) hne2 (L[n - 1])
    conv_rhs => rw [← hLsplit]
    rw [i2, i1]
  have hc : ∀ l ∈ L, '.' ∉ l := by
    intro l hl hdot2
    exact splitOnP_sep_not_mem (· == '.') s.data l hl '.' hdot2 (by simp)
  rw [pySplitDot_of_data_intercalate _ L hdata (List.splitOnP_ne_nil _ _) hc, hsplit]

/-- C7 (confirmed): for schema names with at least 3 dot-separated segments
whose second-to-last segment starts with `v1` or `v2`, `parse_schema_name`
returns that segment as the version and the segment before it as the
prefix; re-joining the returned group, version and kind with `.` yields a
name whose own parse returns the same tuple; and the method
`Swagger.parse_schema_name` agrees with the module-level parser on such
names (when no router model overrides the identifier). -/
theorem c7_parse_version_round_trip (s : String)
    (h3 : 3 ≤ (pySplitDot s).length)
    (hv : pyPrefix2 ((pySplitDot s).getD ((pySplitDot s).length - 2) "") = "v1"
        ∨ pyPrefix2 ((pySplitDot s).getD ((pySplitDot s).length - 2) "") = "v2") :
    (parse_schema_name s).2.1 = (pySplitDot s).getD ((pySplitDot s).length - 2) "" ∧
    (parse_schema_name s).2.2.2 = (pySplitDot s).getD ((pySplitDot s).length - 3) "" ∧
    parse_schema_name ((parse_schema_name s).1 ++ "." ++ (parse_schema_name s).2.1
        ++ "." ++ (parse_schema_name s).2.2.1) = parse_schema_name s ∧
    (∀ schema : Json, schema.get? "x-swagger-router-model" = none →
      swagger_parse_schema_name s schema = parse_schema_name s) := by
  have hp := parse_ge3_v s h3 hv
  refine ⟨by rw [hp], by rw [hp], ?_,
    fun schema hr => swagger_parse_eq_module s schema hr h3⟩
  rw [hp]
  dsimp only
  have hresplit := pySplitDot_rejoin s h3
  unfold parse_schema_name
  rw [hresplit]
  rw [if_neg (by omega), if_pos hv]

/-- Witness for C7 at a concrete Kubernetes-style schema name. -/
theorem c7_witness :
    (parse_schema_name "io.k8s.api.core.v1.Pod").2.1
        = (pySplitDot "io.k8s.api.core.v1.Pod").getD
            ((pySplitDot "io.k8s.api.core.v1.Pod").length - 2) "" ∧
    (parse_schema_name "io.k8s.api.core.v1.Pod").2.2.2
        = (pySplitDot "io.k8s.api.core.v1.Pod").getD
            ((pySplitDot "io.k8s.api.core.v1.Pod").length - 3) "" ∧
    parse_schema_name ((parse_schema_name "io.k8s.api.core.v1.Pod").1 ++ "."
        ++ (parse_schema_name "io.k8s.api.core.v1.Pod").2.1 ++ "."
        ++ (parse_schema_name "io.k8s.api.core.v1.Pod").2.2.1)
      = parse_schema_name "io.k8s.api.core.v1.Pod" ∧
    swagger_parse_schema_name "io.k8s.api.core.v1.Pod" (Json.obj [])
      = parse_schema_name "io.k8s.api.core.v1.Pod" := by
  have h := c7_parse_version_round_trip "io.k8s.api.core.v1.Pod" (by decide) (by decide)
  exact ⟨h.1, h.2.1, h.2.2.1, h.2.2.2 (Json.obj []) rfl⟩

/-- C5 (code bug): reference resolution itself treats every non-local
reference as "no result" — `get_ref` logs and returns `None` for any
expression not starting with `#` — but the v2 dependency collector then
feeds that `None` straight into `parse_schema_name`, where `None.split('.')`
raises an uncaught `AttributeError` that aborts the conversion run, so the
condition is not non-fatal as the spec claims. -/
theorem c5_nonlocal_ref_fatal (c : Char) (cs : List Char) (h : c ≠ '#') :
    get_ref (String.mk (c :: cs)) = none ∧
    get_ref "http://example.com/schemas/Bar" = none ∧
    (v2_get_profile_names_from_schema [] "pkg.v1.Foo"
        (Json.obj [("type", Json.str "object"),
          ("properties", Json.obj
            [("bad", Json.obj
              [("$ref", Json.str "http://example.com/schemas/Bar")])])])).2
      = some PyErr.attributeError := by
  refine ⟨?_, by decide, by decide⟩
  unfold get_ref
  simp [h]

/-- Witness for C5 at a concrete non-local reference. -/
theorem c5_witness :
    get_ref (String.mk ('h' :: "ttp://x".data)) = none ∧
    get_ref "http://example.com/schemas/Bar" = none ∧
    (v2_get_profile_names_from_schema [] "pkg.v1.Foo"
        (Json.obj [("type", Json.str "object"),
          ("properties", Json.obj
            [("bad", Json.obj
              [("$ref", Json.str "http://example.com/schemas/Bar")])])])).2
      = some PyErr.attributeError :=
  c5_nonlocal_ref_fatal 'h' ("ttp://x".data) (by decide)

/-- C8 counterexample: rendering inside the profile of namespace `a.pkg`
(import prefix `pkg`, created by dependency collection), a property that
references `b.pkg.v1.Bar` — a schema whose namespace `b.pkg` differs from
`a.pkg` — is emitted with the unqualified kind `Bar`, because
`Profile.add_property` compares import prefixes (`pkg` = `pkg`), not
namespaces. -/
theorem c8_counterexample :
    (parse_schema_name "b.pkg.v1.Bar").1 ≠ "a.pkg" ∧
    alookup "a.pkg" (v2_get_profile_names (Json.obj [("definitions", Json.obj
      [("a.pkg.v1.Foo", Json.obj [("type", Json.str "object"),
         ("properties", Json.obj
           [("bar", Json.obj [("$ref", Json.str "#/definitions/b.pkg.v1.Bar")])])]),
       ("b.pkg.v1.Bar", Json.obj [("type", Json.str "object")])])])).1
      = some ⟨"a.pkg", "v1", "pkg", [("b.pkg", "pkg")], [], []⟩ ∧
    add_property_type_line ⟨"a.pkg", "v1", "pkg", [("b.pkg", "pkg")], [], []⟩ "      "
        (Json.obj [("$ref", Json.str "#/definitions/b.pkg.v1.Bar")])
      = .ok (some ("      type: Bar\n")) := by
  refine ⟨by decide, rfl, rfl⟩

/-- C8 (amended): for a property whose type is a resolvable `$ref`, the
emitted type name is qualified as `prefix:kind` if and only if the
referenced schema's import prefix is non-empty and differs from the
rendering profile's import prefix (`self.prefix`) — not if and only if the
namespaces differ, as the claim stated. -/
theorem c8_qualified_iff_pfx_differs (p : Profile) (indent r schema_name : String)
    (schema : Json)
    (htype : schema.get? "type" = none)
    (href : schema.get? "$ref" = some (Json.str r))
    (hres : get_ref r = some schema_name) :
    add_property_type_line p indent schema
      = .ok (some (indent ++ "type: "
          ++ ((parse_schema_name schema_name).2.2.2 ++ ":"
              ++ (parse_schema_name schema_name).2.2.1) ++ "\n"))
    ↔ ((parse_schema_name schema_name).2.2.2 ≠ ""
        ∧ (parse_schema_name schema_name).2.2.2 ≠ p.pfx) := by
  unfold add_property_type_line
  rw [htype, href]
  dsimp only
  rw [hres]
  dsimp only
  by_cases hcond : ((parse_schema_name schema_name).2.2.2 != ""
      && (parse_schema_name schema_name).2.2.2 != p.pfx) = true
  · rw [if_pos hcond]
    simp only [Bool.and_eq_true, bne_iff_ne] at hcond
    simp [hcond]
  · rw [if_neg hcond]
    simp only [Bool.and_eq_true, bne_iff_ne, not_and_or, not_not] at hcond
    constructor
    · intro heq
      exfalso
      have hs : indent ++ "type: " ++ (parse_schema_name schema_name).2.2.1 ++ "\n"
          = indent ++ "type: "
            ++ ((parse_schema_name schema_name).2.2.2 ++ ":"
                ++ (parse_schema_name schema_name).2.2.1) ++ "\n" := by
        simpa using heq
      have hlen := congrArg String.length hs
      have hcolon : (":" : String).length = 1 := rfl
      simp only [String.length_append, hcolon] at hlen
      omega
    · intro hand
      rcases hcond with h1 | h1
      · exact absurd h1 hand.1
      · exact absurd h1 hand.2

/-- Witness for the C8 amendment: a cross-prefix reference is qualified. -/
theorem c8_witness :
    add_property_type_line ⟨"a.pkg", "v1", "pkg", [], [], []⟩ "      "
        (Json.obj [("$ref", Json.str "#/definitions/other.v1.Thing")])
      = .ok (some ("      type: "
          ++ ((parse_schema_name "other.v1.Thing").2.2.2 ++ ":"
              ++ (parse_schema_name "other.v1.Thing").2.2.1) ++ "\n")) :=
  (c8_qualified_iff_pfx_differs ⟨"a.pkg", "v1", "pkg", [], [], []⟩ "      "
      "#/definitions/other.v1.Thing" "other.v1.Thing"
      (Json.obj [("$ref", Json.str "#/definitions/other.v1.Thing")])
      rfl rfl (by decide)).mpr (by decide)

/-- C9 (code bug), evaluating the renderer at the failing inputs:

* a string schema with `minLength` raises `TypeError`, because
  `emit_min_length` (profile.py line 811) is declared without `self` and the
  call `self.emit_min_length(indent, minLength)` passes three positional
  arguments to a two-parameter function;
* a string schema with `pattern` but no `enum` emits a `constraints:` header
  and no `pattern` entry — the pattern write is guarded by `if enum:`
  (line 381);
* a string schema with only `enum` emits a spurious `- pattern: 'None'`
  entry for the same reason;
* `maxLength` alone is translated correctly. -/
theorem c9_string_constraint_rendering :
    process_keywords_for_string "    " (Json.obj
        [("type", Json.str "string"), ("minLength", Json.num 5)])
      = .error .typeError ∧
    process_keywords_for_string "    " (Json.obj
        [("type", Json.str "string"), ("pattern", Json.str "^[a-z]+$")])
      = .ok ["    constraints:\n"] ∧
    process_keywords_for_string "    " (Json.obj
        [("type", Json.str "string"), ("enum", Json.arr [Json.str "up"])])
      = .ok ["    constraints:\n", "      - valid_values:\n", "        - up",
             "      - pattern: \x27None\x27\n"] ∧
    process_keywords_for_string "    " (Json.obj
        [("type", Json.str "string"), ("maxLength", Json.num 16)])
      = .ok ["    constraints:\n", "      - max_length: 16\n"] := by
  refine ⟨rfl, rfl, rfl, rfl⟩

/-! ## Association-list and record-count lemmas for the materializer -/

theorem lookupStr_mem (k : String) :
    ∀ (l : List (String × Json)) (v : Json), lookupStr k l = some v →
      k ∈ l.map (fun kv => kv.1) := by
  intro l
  induction l with
  | nil => intro v hv; simp [lookupStr] at hv
  | cons hd tl ih =>
    intro v hv
    simp only [lookupStr] at hv
    split at hv
    · rename_i heq
      simp [heq]
    · simp only [List.map_cons, List.mem_cons]
      exact Or.inr (ih v hv)

theorem alookup_aset_eq {α : Type} (g : String) (v : α) :
    ∀ (l : List (String × α)) (p : α), alookup g l = some p →
      alookup g (aset g v l) = some v := by
  intro l
  induction l with
  | nil => intro p hp; simp [alookup] at hp
  | cons hd tl ih =>
    intro p hp
    simp only [alookup] at hp
    by_cases heq : hd.1 = g
    · rcases hd with ⟨k1, w⟩
      simp only at heq
      simp [aset, alookup, heq]
    · rcases hd with ⟨k1, w⟩
      simp only at heq
      rw [if_neg heq] at hp
      simp only [aset, alookup, if_neg heq]
      exact ih p hp

theorem alookup_aset_ne {α : Type} (g g' : String) (v : α) (hne : g' ≠ g) :
    ∀ (l : List (String × α)), alookup g' (aset g v l) = alookup g' l := by
  intro l
  induction l with
  | nil => simp [aset, alookup, hne, Ne.symm hne]
  | cons hd tl ih =>
    rcases hd with ⟨k1, w⟩
    by_cases heq : k1 = g
    · simp [aset, alookup, heq, hne, Ne.symm hne]
    · simp only [aset, if_neg heq, alookup]
      by_cases heq' : k1 = g'
      · simp [heq']
      · simp [heq', ih]

theorem alookup_isSome_iff_mem {α : Type} (g : String) :
    ∀ l : List (String × α), (alookup g l).isSome = true ↔ g ∈ l.map (fun kv => kv.1) := by
  intro l
  induction l with
  | nil => simp [alookup]
  | cons hd tl ih =>
    rcases hd with ⟨k1, w⟩
    by_cases heq : k1 = g
    · simp [alookup, heq]
    · simp [alookup, heq, ih, Ne.symm heq]

theorem sumData_aset_emitD (g k : String) (s : Json) :
    ∀ (l : List (String × Profile)) (p : Profile), alookup g l = some p →
      ((aset g (p.emit_data_type k s) l).map (fun gp => gp.2.dataRecords.length)).sum
        = (l.map (fun gp => gp.2.dataRecords.length)).sum + 1 := by
  intro l
  induction l with
  | nil => intro p hp; simp [alookup] at hp
  | cons hd tl ih =>
    intro p hp
    rcases hd with ⟨k1, w⟩
    by_cases heq : k1 = g
    · simp only [alookup, if_pos heq] at hp
      rcases Option.some.inj hp with rfl
      simp [aset, heq, Profile.emit_data_type]
      omega
    · simp only [alookup, if_neg heq] at hp
      simp only [aset, if_neg heq, List.map_cons, List.sum_cons, ih p hp]
      omega

theorem sumNode_aset_emitD (g k : String) (s : Json) :
    ∀ (l : List (String × Profile)) (p : Profile), alookup g l = some p →
      ((aset g (p.emit_data_type k s) l).map (fun gp => gp.2.nodeRecords.length)).sum
        = (l.map (fun gp => gp.2.nodeRecords.length)).sum := by
  intro l
  induction l with
  | nil => intro p hp; simp [alookup] at hp
  | cons hd tl ih =>
    intro p hp
    rcases hd with ⟨k1, w⟩
    by_cases heq : k1 = g
    · simp only [alookup, if_pos heq] at hp
      rcases Option.some.inj hp with rfl
      simp [aset, heq, Profile.emit_data_type]
    · simp only [alookup, if_neg heq] at hp
      simp [aset, if_neg heq, ih p hp]

theorem sumNode_aset_emitN (g k : String) (s : Json) :
    ∀ (l : List (String × Profile)) (p : Profile), alookup g l = some p →
      ((aset g (p.emit_node_type k s) l).map (fun gp => gp.2.nodeRecords.length)).sum
        = (l.map (fun gp => gp.2.nodeRecords.length)).sum + 1 := by
  intro l
  induction l with
  | nil => intro p hp; simp [alookup] at hp
  | cons hd tl ih =>
    intro p hp
    rcases hd with ⟨k1, w⟩
    by_cases heq : k1 = g
    · simp only [alookup, if_pos heq] at hp
      rcases Option.some.inj hp with rfl
      simp [aset, heq, Profile.emit_node_type]
      omega
    · simp only [alookup, if_neg heq] at hp
      simp only [aset, if_neg heq, List.map_cons, List.sum_cons, ih p hp]
      omega

theorem sumData_aset_emitN (g k : String) (s : Json) :
    ∀ (l : List (String × Profile)) (p : Profile), alookup g l = some p →
      ((aset g (p.emit_node_type k s) l).map (fun gp => gp.2.dataRecords.length)).sum
        = (l.map (fun gp => gp.2.dataRecords.length)).sum := by
  intro l
  induction l with
  | nil => intro p hp; simp [alookup] at hp
  | cons hd tl ih =>
    intro p hp
    rcases hd with ⟨k1, w⟩
    by_cases heq : k1 = g
    · simp only [alookup, if_pos heq] at hp
      rcases Option.some.inj hp with rfl
      simp [aset, heq, Profile.emit_node_type]
    · simp only [alookup, if_neg heq] at hp
      simp [aset, if_neg heq, ih p hp]

theorem pexcD_aset_emitD (g k : String) (s : Json) :
    ∀ (l : List (String × Profile)) (p : Profile), alookup g l = some p →
      (aset g (p.emit_data_type k s) l).map (fun gp => (gp.1, profileExceptData gp.2))
        = l.map (fun gp => (gp.1, profileExceptData gp.2)) := by
  intro l
  induction l with
  | nil => intro p hp; simp [alookup] at hp
  | cons hd tl ih =>
    intro p hp
    rcases hd with ⟨k1, w⟩
    by_cases heq : k1 = g
    · simp only [alookup, if_pos heq] at hp
      rcases Option.some.inj hp with rfl
      simp [aset, heq, Profile.emit_data_type, profileExceptData]
    · simp only [alookup, if_neg heq] at hp
      simp [aset, if_neg heq, ih p hp]

theorem countData_aset_emitD (st : SwaggerState) (g k : String) (s : Json)
    (p : Profile) (hal : alookup g st.profiles = some p) (g' k' : String) :
    countDataRecords { st with
        profiles := aset g (p.emit_data_type k s) st.profiles } g' k'
      = countDataRecords st g' k' + (if g' = g ∧ k' = k then 1 else 0) := by
  unfold countDataRecords
  by_cases hg : g' = g
  · subst hg
    rw [alookup_aset_eq g' (p.emit_data_type k s) st.profiles p hal, hal]
    simp only [Profile.emit_data_type, List.filter_append]
    by_cases hk : k' = k
    · subst hk
      simp
    · simp [hk, Ne.symm hk]
  · rw [alookup_aset_ne g g' (p.emit_data_type k s) hg st.profiles]
    simp [hg]

theorem profiles_keys_of_pexcD (st st' : SwaggerState)
    (h : profilesExceptData st' = profilesExceptData st) :
    st'.profiles.map (fun gp => gp.1) = st.profiles.map (fun gp => gp.1) := by
  have h1 := congrArg (List.map (fun x => x.1)) h
  simpa [profilesExceptData, List.map_map, Function.comp] using h1

theorem alookup_isSome_of_pexcD (st st' : SwaggerState)
    (h : profilesExceptData st' = profilesExceptData st) (g : String) :
    (alookup g st'.profiles).isSome = (alookup g st.profiles).isSome := by
  have hk := profiles_keys_of_pexcD st st' h
  by_cases hmem : g ∈ st.profiles.map (fun gp => gp.1)
  · have h1 : (alookup g st.profiles).isSome = true := (alookup_isSome_iff_mem g _).mpr hmem
    have h2 : (alookup g st'.profiles).isSome = true :=
      (alookup_isSome_iff_mem g _).mpr (by rw [hk]; exact hmem)
    rw [h1, h2]
  · have h1 : ¬ (alookup g st.profiles).isSome = true := fun hs =>
      hmem ((alookup_isSome_iff_mem g _).mp hs)
    have h2 : ¬ (alookup g st'.profiles).isSome = true := fun hs =>
      hmem (by rw [← hk]; exact (alookup_isSome_iff_mem g _).mp hs)
    rw [Bool.not_eq_true] at h1 h2
    rw [h1, h2]

theorem totalNode_of_pexcD (st st' : SwaggerState)
    (h : profilesExceptData st' = profilesExceptData st) :
    totalNodeRecords st' = totalNodeRecords st := by
  have h1 := congrArg (List.map (fun x =>
    (x.2.2.2.2.2 : List (String × Json)).length)) h
  have h2 := congrArg List.sum h1
  simpa [profilesExceptData, profileExceptData, List.map_map, Function.comp,
    totalNodeRecords] using h2

theorem DataFrame.refl (st : SwaggerState) : DataFrame st st :=
  ⟨List.prefix_refl _, rfl, rfl, rfl, Nat.le_refl _⟩

theorem DataFrame.trans {s1 s2 s3 : SwaggerState}
    (h12 : DataFrame s1 s2) (h23 : DataFrame s2 s3) : DataFrame s1 s3 := by
  obtain ⟨a1, b1, c1, d1, e1⟩ := h12
  obtain ⟨a2, b2, c2, d2, e2⟩ := h23
  refine ⟨a1.trans a2, b2.trans b1, c2.trans c1, d2.trans d1, ?_⟩
  have l1 := a1.length_le
  have l2 := a2.length_le
  omega

theorem attempt_slot_frame (doc : Json)
    (recur : SwaggerState → String → Json → Option (SwaggerState × Option PyErr))
    (hrec : ∀ st n s r, recur st n s = some r → DataFrame st r.1) :
    ∀ st rv r, attempt_slot doc recur st rv = some r → DataFrame st r.1 := by
  intro st rv r h
  unfold attempt_slot at h
  split at h
  · rcases Option.some.inj h with rfl
    exact DataFrame.refl st
  · split at h
    · rcases Option.some.inj h with rfl
      exact DataFrame.refl st
    · split at h
      · rcases Option.some.inj h with rfl
        exact DataFrame.refl st
      · split at h
        · exact absurd h (by simp)
        · rcases Option.some.inj h with rfl
          exact hrec _ _ _ _ (by assumption)
        · rcases Option.some.inj h with rfl
          exact hrec _ _ _ _ (by assumption)

theorem props_loop_frame (doc : Json)
    (recur : SwaggerState → String → Json → Option (SwaggerState × Option PyErr))
    (hrec : ∀ st n s r, recur st n s = some r → DataFrame st r.1) :
    ∀ (props : List (String × Json)) (st : SwaggerState) r,
      props_loop doc recur st props = some r → DataFrame st r.1 := by
  intro props
  induction props with
  | nil =>
    intro st r h
    rcases Option.some.inj h with rfl
    exact DataFrame.refl st
  | cons hd tl ih =>
    rcases hd with ⟨pname, pval⟩
    intro st r h
    rw [props_loop] at h
    rcases h1 : attempt_slot doc recur st (pval.get? "$ref") with _ | r1
    · rw [h1] at h
      exact absurd h (by simp)
    · rw [h1] at h
      dsimp only at h
      have f1 := attempt_slot_frame doc recur hrec st _ _ h1
      by_cases hb1 : r1.2.1 = true
      · rw [if_pos hb1] at h
        rcases h2 : attempt_slot doc recur r1.1
            ((pval.get? "items").bind (fun i => i.get? "$ref")) with _ | r2
        · rw [h2] at h
          exact absurd h (by simp)
        · rw [h2] at h
          dsimp only at h
          have f2 := attempt_slot_frame doc recur hrec r1.1 _ _ h2
          by_cases hb2 : r2.2.1 = true
          · rw [if_pos hb2] at h
            rcases h3 : attempt_slot doc recur r2.1
                ((pval.get? "additionalProperties").bind (fun a => a.get? "$ref")) with _ | r3
            · rw [h3] at h
              exact absurd h (by simp)
            · rw [h3] at h
              dsimp only at h
              have f3 := attempt_slot_frame doc recur hrec r2.1 _ _ h3
              have f123 := (f1.trans f2).trans f3
              by_cases hb3 : r3.2.1 = true
              · rw [if_pos hb3] at h
                exact f123.trans (ih _ _ h)
              · rw [if_neg hb3] at h
                rcases he3 : r3.2.2 with _ | e3
                · rw [he3] at h
                  exact f123.trans (ih _ _ h)
                · rw [he3] at h
                  rcases Option.some.inj h with rfl
                  exact f123
          · rw [if_neg hb2] at h
            rcases he2 : r2.2.2 with _ | e2
            · rw [he2] at h
              exact (f1.trans f2).trans (ih _ _ h)
            · rw [he2] at h
              rcases Option.some.inj h with rfl
              exact f1.trans f2
      · rw [if_neg hb1] at h
        rcases he1 : r1.2.2 with _ | e1
        · rw [he1] at h
          exact f1.trans (ih _ _ h)
        · rw [he1] at h
          rcases Option.some.inj h with rfl
          exact f1

theorem create_props_frame (doc : Json)
    (recur : SwaggerState → String → Json → Option (SwaggerState × Option PyErr))
    (hrec : ∀ st n s r, recur st n s = some r → DataFrame st r.1)
    (st : SwaggerState) (schema : Json) (r : SwaggerState × Option PyErr)
    (h : create_data_types_for_properties doc recur st schema = some r) :
    DataFrame st r.1 := by
  unfold create_data_types_for_properties at h
  split at h
  · rcases Option.some.inj h with rfl
    exact DataFrame.refl st
  · exact props_loop_frame doc recur hrec _ st r h
  · rcases Option.some.inj h with rfl
    exact DataFrame.refl st

theorem insert_data_frame (st : SwaggerState) (n : String) :
    DataFrame st { st with data_types := st.data_types ++ [n] } := by
  refine ⟨List.prefix_append _ _, rfl, rfl, rfl, ?_⟩
  simp only [totalDataRecords, List.length_append]
  omega

theorem create_data_step_frame (doc : Json)
    (recur : SwaggerState → String → Json → Option (SwaggerState × Option PyErr))
    (hrec : ∀ st n s r, recur st n s = some r → DataFrame st r.1)
    (st : SwaggerState) (n : String) (s : Json) (r : SwaggerState × Option PyErr)
    (h : create_data_type_step doc recur st n s = some r) : DataFrame st r.1 := by
  unfold create_data_type_step at h
  split at h
  · rcases Option.some.inj h with rfl
    exact DataFrame.refl st
  · dsimp only at h
    split at h
    · rcases Option.some.inj h with rfl
      exact insert_data_frame st n
    · split at h
      · rcases Option.some.inj h with rfl
        exact insert_data_frame st n
      · rcases hp : create_data_types_for_properties doc recur
            { st with data_types := st.data_types ++ [n] } s with _ | r2
        · rw [hp] at h
          exact absurd h (by simp)
        · rw [hp] at h
          dsimp only at h
          have f12 := create_props_frame doc recur hrec _ s r2 hp
          have f02 := (insert_data_frame st n).trans f12
          split at h
          · rcases Option.some.inj h with rfl
            exact f02
          · rename_i p heq
            rcases Option.some.inj h with rfl
            obtain ⟨a2, b2, c2, d2, e2⟩ := f02
            obtain ⟨a12, b12, c12, d12, e12⟩ := f12
            refine ⟨a2, b2, c2, ?_, ?_⟩
            · show profilesExceptData _ = _
              have hx := pexcD_aset_emitD (swagger_parse_schema_name n s).1
                (swagger_parse_schema_name n s).2.2.1 s r2.1.profiles p heq
              exact hx.trans d2
            · have hsum := sumData_aset_emitD (swagger_parse_schema_name n s).1
                (swagger_parse_schema_name n s).2.2.1 s r2.1.profiles p heq
              have e12x : (List.map (fun gp => gp.2.dataRecords.length) r2.1.profiles).sum
                    + (st.data_types.length + 1)
                  ≤ (List.map (fun gp => gp.2.dataRecords.length) st.profiles).sum
                    + r2.1.data_types.length := by
                simpa [totalDataRecords] using e12
              dsimp only
              simp only [totalDataRecords]
              rw [hsum]
              have hgoal : (List.map (fun gp => gp.2.dataRecords.length) r2.1.profiles).sum
                    + 1 + st.data_types.length
                  ≤ (List.map (fun gp => gp.2.dataRecords.length) st.profiles).sum
                    + r2.1.data_types.length := by omega
              exact hgoal

theorem create_data_frame (doc : Json) :
    ∀ (fuel : Nat) (st : SwaggerState) (n : String) (s : Json)
      (r : SwaggerState × Option PyErr),
      create_data_type_from_schema doc fuel st n s = some r → DataFrame st r.1 := by
  intro fuel
  induction fuel with
  | zero =>
    intro st n s r h
    simp [create_data_type_from_schema] at h
  | succ f ih =>
    intro st n s r h
    rw [create_data_type_from_schema] at h
    exact create_data_step_frame doc _ ih st n s r h

theorem create_data_mem_noop (doc : Json) (fuel : Nat) (st : SwaggerState)
    (n : String) (s : Json) (h : n ∈ st.data_types) :
    create_data_type_from_schema doc (fuel + 1) st n s = some (st, none) := by
  rw [create_data_type_from_schema]
  unfold create_data_type_step
  rw [if_pos h]

theorem create_data_bare_ref (doc : Json) (fuel : Nat) (st : SwaggerState)
    (n : String) (s : Json) (hmem : n ∉ st.data_types)
    (rv : Json) (href : s.get? "$ref" = some rv) :
    create_data_type_from_schema doc (fuel + 1) st n s
      = some ({ st with data_types := st.data_types ++ [n] }, none) := by
  rw [create_data_type_from_schema]
  unfold create_data_type_step
  rw [if_neg hmem]
  dsimp only
  rw [href]

theorem create_data_visited (doc : Json) (fuel : Nat) (st : SwaggerState)
    (n : String) (s : Json) (r : SwaggerState × Option PyErr)
    (h : create_data_type_from_schema doc fuel st n s = some r) :
    n ∈ r.1.data_types := by
  cases fuel with
  | zero => simp [create_data_type_from_schema] at h
  | succ f =>
    rw [create_data_type_from_schema] at h
    unfold create_data_type_step at h
    split at h
    · rcases Option.some.inj h with rfl
      assumption
    · dsimp only at h
      have hmem1 : n ∈ ({ st with data_types := st.data_types ++ [n] }
          : SwaggerState).data_types := by simp
      split at h
      · rcases Option.some.inj h with rfl
        exact hmem1
      · split at h
        · rcases Option.some.inj h with rfl
          exact hmem1
        · rcases hp : create_data_types_for_properties doc
              (create_data_type_from_schema doc f)
              { st with data_types := st.data_types ++ [n] } s with _ | r2
          · rw [hp] at h
            exact absurd h (by simp)
          · rw [hp] at h
            dsimp only at h
            have f12 := create_props_frame doc _ (create_data_frame doc f) _ s r2 hp
            have hmem2 : n ∈ r2.1.data_types :=
              f12.1.subset (by simp)
            split at h
            · rcases Option.some.inj h with rfl
              exact hmem2
            · rcases Option.some.inj h with rfl
              exact hmem2

theorem plan_preserves (st : SwaggerState) (schema : Json) :
    (plan_data_types_for_properties st schema).node_types = st.node_types ∧
    (plan_data_types_for_properties st schema).data_types = st.data_types ∧
    (plan_data_types_for_properties st schema).profiles = st.profiles := by
  unfold plan_data_types_for_properties
  split <;> exact ⟨rfl, rfl, rfl⟩

theorem create_node_mem_noop (st : SwaggerState) (n : String) (s : Json)
    (h : n ∈ st.node_types) :
    create_node_type_from_schema st n s = (st, none) := by
  unfold create_node_type_from_schema
  rw [if_pos h]

theorem create_node_visited (st : SwaggerState) (n : String) (s : Json) :
    n ∈ (create_node_type_from_schema st n s).1.node_types := by
  unfold create_node_type_from_schema
  by_cases hmem : n ∈ st.node_types
  · rw [if_pos hmem]
    exact hmem
  · rw [if_neg hmem]
    dsimp only
    have hbase : n ∈ st.node_types ++ [n] := by simp
    have hplan := (plan_preserves
      { st with node_types := st.node_types ++ [n] } s).1
    split
    · exact hbase
    · split
      · exact hbase
      · split
        · exact hbase
        · split
          · dsimp only
            rw [hplan]
            exact hbase
          · dsimp only
            rw [hplan]
            exact hbase

theorem create_node_no_type (st : SwaggerState) (n : String) (s : Json)
    (hmem : n ∉ st.node_types) (hty : s.get? "type" = none) :
    create_node_type_from_schema st n s
      = ({ st with node_types := st.node_types ++ [n] }, none) := by
  unfold create_node_type_from_schema
  rw [if_neg hmem]
  dsimp only
  rw [hty]

theorem create_node_frame (st : SwaggerState) (n : String) (s : Json)
    (r : SwaggerState × Option PyErr) (h : create_node_type_from_schema st n s = r) :
    st.node_types <+: r.1.node_types ∧
    r.1.data_types = st.data_types ∧
    r.1.node_types.length ≤ st.node_types.length + 1 ∧
    totalNodeRecords r.1 + st.node_types.length
      ≤ totalNodeRecords st + r.1.node_types.length ∧
    totalDataRecords r.1 = totalDataRecords st := by
  unfold create_node_type_from_schema at h
  by_cases hmem : n ∈ st.node_types
  · rw [if_pos hmem] at h
    rcases h with rfl
    exact ⟨List.prefix_refl _, rfl, Nat.le_succ _, Nat.le_refl _, rfl⟩
  · rw [if_neg hmem] at h
    dsimp only at h
    have hplan := plan_preserves { st with node_types := st.node_types ++ [n] } s
    have hins : st.node_types <+: st.node_types ++ [n] := List.prefix_append _ _
    split at h
    · rcases h with rfl
      refine ⟨hins, rfl, by simp, ?_, rfl⟩
      simp [totalNodeRecords]
    · split at h
      · rcases h with rfl
        refine ⟨hins, rfl, by simp, ?_, rfl⟩
        simp [totalNodeRecords]
      · split at h
        · rcases h with rfl
          refine ⟨hins, rfl, by simp, ?_, rfl⟩
          simp [totalNodeRecords]
        · split at h
          · rcases h with rfl
            refine ⟨by rw [hplan.1]; exact hins, by rw [hplan.2.1], ?_, ?_, ?_⟩
            · rw [hplan.1]; simp
            · rw [hplan.1]
              have : totalNodeRecords (plan_data_types_for_properties
                  { st with node_types := st.node_types ++ [n] } s)
                  = totalNodeRecords st := by
                simp [totalNodeRecords, hplan.2.2]
              rw [this]
              simp
            · simp [totalDataRecords, hplan.2.2]
          · rename_i p heq
            rcases h with rfl
            have hsumN := sumNode_aset_emitN (swagger_parse_schema_name n s).1
              (swagger_parse_schema_name n s).2.2.1 s
              (plan_data_types_for_properties
                { st with node_types := st.node_types ++ [n] } s).profiles p heq
            have hsumD := sumData_aset_emitN (swagger_parse_schema_name n s).1
              (swagger_parse_schema_name n s).2.2.1 s
              (plan_data_types_for_properties
                { st with node_types := st.node_types ++ [n] } s).profiles p heq
            refine ⟨by rw [hplan.1]; exact hins, by rw [hplan.2.1], ?_, ?_, ?_⟩
            · rw [hplan.1]; simp
            · dsimp only
              rw [hplan.1]
              simp only [totalNodeRecords]
              rw [hsumN, hplan.2.2]
              simp only [List.length_append, List.length_cons, List.length_nil]
              omega
            · dsimp only
              simp only [totalDataRecords]
              rw [hsumD, hplan.2.2]

theorem process_loop_frame (doc : Json) (fuel : Nat) :
    ∀ (dl : List (Option String)) (st : SwaggerState) (r : SwaggerState × Option PyErr),
      process_definitions_loop doc fuel st dl = some r → DataFrame st r.1 := by
  intro dl
  induction dl with
  | nil =>
    intro st r h
    rcases Option.some.inj h with rfl
    exact DataFrame.refl st
  | cons d rest ih =>
    intro st r h
    rcases d with _ | name
    · rw [process_definitions_loop] at h
      exact ih st r h
    · rw [process_definitions_loop] at h
      split at h
      · exact ih st r h
      · rename_i value hlk
        split at h
        · exact absurd h (by simp)
        · rename_i st2 e hc
          rcases Option.some.inj h with rfl
          exact create_data_frame doc fuel st name value _ hc
        · rename_i st2 hc
          have f1 := create_data_frame doc fuel st name value _ hc
          split at h
          · rcases Option.some.inj h with rfl
            exact f1
          · exact f1.trans (ih st2 r h)

theorem countP_le_countP_of_imp {α : Type} (p q : α → Bool)
    (himp : ∀ x, q x = true → p x = true) :
    ∀ l : List α, l.countP q ≤ l.countP p := by
  intro l
  induction l with
  | nil => rw [List.countP_nil, List.countP_nil]
  | cons a t ih =>
    rw [List.countP_cons, List.countP_cons]
    by_cases hq : q a = true
    · rw [hq, himp a hq]
      omega
    · rw [Bool.not_eq_true] at hq
      rw [hq]
      simp only [if_false, Bool.false_eq_true]
      split <;> omega

theorem countP_succ_le_of_mem {α : Type} (p q : α → Bool) (a : α)
    (hp : p a = true) (hq : q a = false)
    (himp : ∀ x, q x = true → p x = true) :
    ∀ l : List α, a ∈ l → l.countP q + 1 ≤ l.countP p := by
  intro l
  induction l with
  | nil => intro hmem; simp at hmem
  | cons b t ih =>
    intro hmem
    rw [List.countP_cons, List.countP_cons]
    rcases List.mem_cons.mp hmem with rfl | hmem2
    · rw [hp, hq]
      have := countP_le_countP_of_imp p q himp t
      simp only [if_true, Bool.false_eq_true, if_false]
      omega
    · have h1 := ih hmem2
      by_cases hqb : q b = true
      · rw [hqb, himp b hqb]
        omega
      · rw [Bool.not_eq_true] at hqb
        rw [hqb]
        simp only [Bool.false_eq_true, if_false]
        split <;> omega

theorem mem_defKeys (doc : Json) (name : String) (s : Json)
    (h : ((doc.get? "definitions").bind (fun d => d.get? name)) = some s) :
    name ∈ defKeys doc := by
  unfold defKeys
  rcases hdef : doc.get? "definitions" with _ | d
  · rw [hdef] at h
    exact absurd h (by simp)
  · rw [hdef] at h
    simp only [Option.some_bind] at h
    cases d with
    | obj defs => exact lookupStr_mem name defs s h
    | null => simp [Json.get?] at h
    | bool b => simp [Json.get?] at h
    | num n => simp [Json.get?] at h
    | str t => simp [Json.get?] at h
    | arr l => simp [Json.get?] at h

theorem unvisitedDefs_mono (doc : Json) (st st' : SwaggerState)
    (h : st.data_types ⊆ st'.data_types) :
    unvisitedDefs doc st' ≤ unvisitedDefs doc st := by
  unfold unvisitedDefs
  apply countP_le_countP_of_imp
  intro x hx
  simp only [decide_eq_true_eq] at hx ⊢
  exact fun hmem => hx (h hmem)

theorem unvisitedDefs_insert_lt (doc : Json) (st : SwaggerState) (n : String)
    (hk : n ∈ defKeys doc) (hn : n ∉ st.data_types) :
    unvisitedDefs doc { st with data_types := st.data_types ++ [n] } + 1
      ≤ unvisitedDefs doc st := by
  unfold unvisitedDefs
  refine countP_succ_le_of_mem _ _ n ?_ ?_ ?_ (defKeys doc) hk
  · simp [hn]
  · simp
  · intro x hx
    simp only [decide_eq_true_eq] at hx ⊢
    intro hmem
    exact hx (List.mem_append_left _ hmem)

theorem attempt_slot_total (doc : Json) (base : List String)
    (recur : SwaggerState → String → Json → Option (SwaggerState × Option PyErr))
    (hrecT : ∀ st' n' s', base ⊆ st'.data_types → n' ∈ defKeys doc →
       recur st' n' s' ≠ none)
    (st : SwaggerState) (hb : base ⊆ st.data_types) (rv : Option Json) :
    attempt_slot doc recur st rv ≠ none := by
  unfold attempt_slot
  split
  · simp
  · split
    · simp
    · split
      · simp
      · rename_i s hs
        have hname := mem_defKeys doc _ s hs
        rcases hr : recur st _ s with _ | p
        · exact absurd hr (hrecT st _ s hb hname)
        · rcases p with ⟨st2, e⟩
          rcases e with _ | e
          · simp
          · rcases e <;> simp

theorem props_loop_total (doc : Json) (base : List String)
    (recur : SwaggerState → String → Json → Option (SwaggerState × Option PyErr))
    (hrecDF : ∀ st0 n0 s0 r, recur st0 n0 s0 = some r → DataFrame st0 r.1)
    (hrecT : ∀ st' n' s', base ⊆ st'.data_types → n' ∈ defKeys doc →
       recur st' n' s' ≠ none) :
    ∀ (props : List (String × Json)) (st : SwaggerState), base ⊆ st.data_types →
      props_loop doc recur st props ≠ none := by
  intro props
  induction props with
  | nil =>
    intro st hb
    rw [props_loop]
    simp
  | cons hd tl ih =>
    rcases hd with ⟨pn, pv⟩
    intro st hb
    rw [props_loop]
    rcases h1 : attempt_slot doc recur st (pv.get? "$ref") with _ | r1
    · exact absurd h1 (attempt_slot_total doc base recur hrecT st hb _)
    · dsimp only
      have hb1 : base ⊆ r1.1.data_types :=
        hb.trans (attempt_slot_frame doc recur hrecDF st _ _ h1).1.subset
      by_cases hc1 : r1.2.1 = true
      · rw [if_pos hc1]
        rcases h2 : attempt_slot doc recur r1.1
            ((pv.get? "items").bind (fun i => i.get? "$ref")) with _ | r2
        · exact absurd h2 (attempt_slot_total doc base recur hrecT r1.1 hb1 _)
        · dsimp only
          have hb2 : base ⊆ r2.1.data_types :=
            hb1.trans (attempt_slot_frame doc recur hrecDF r1.1 _ _ h2).1.subset
          by_cases hc2 : r2.2.1 = true
          · rw [if_pos hc2]
            rcases h3 : attempt_slot doc recur r2.1
                ((pv.get? "additionalProperties").bind (fun a => a.get? "$ref")) with _ | r3
            · exact absurd h3 (attempt_slot_total doc base recur hrecT r2.1 hb2 _)
            · dsimp only
              have hb3 : base ⊆ r3.1.data_types :=
                hb2.trans (attempt_slot_frame doc recur hrecDF r2.1 _ _ h3).1.subset
              by_cases hc3 : r3.2.1 = true
              · rw [if_pos hc3]
                exact ih r3.1 hb3
              · rw [if_neg hc3]
                rcases he3 : r3.2.2 with _ | e3
                · exact ih r3.1 hb3
                · simp
          · rw [if_neg hc2]
            rcases he2 : r2.2.2 with _ | e2
            · exact ih r2.1 hb2
            · simp
      · rw [if_neg hc1]
        rcases he1 : r1.2.2 with _ | e1
        · exact ih r1.1 hb1
        · simp

theorem create_props_total (doc : Json) (base : List String)
    (recur : SwaggerState → String → Json → Option (SwaggerState × Option PyErr))
    (hrecDF : ∀ st0 n0 s0 r, recur st0 n0 s0 = some r → DataFrame st0 r.1)
    (hrecT : ∀ st' n' s', base ⊆ st'.data_types → n' ∈ defKeys doc →
       recur st' n' s' ≠ none)
    (st : SwaggerState) (s : Json) (hb : base ⊆ st.data_types) :
    create_data_types_for_properties doc recur st s ≠ none := by
  unfold create_data_types_for_properties
  split
  · simp
  · exact props_loop_total doc base recur hrecDF hrecT _ st hb
  · simp

theorem create_data_step_total (doc : Json)
    (recur : SwaggerState → String → Json → Option (SwaggerState × Option PyErr))
    (st : SwaggerState) (n : String)
    (hrecDF : ∀ st0 n0 s0 r, recur st0 n0 s0 = some r → DataFrame st0 r.1)
    (hrecT : ∀ st' n' s', (st.data_types ++ [n]) ⊆ st'.data_types →
       n' ∈ defKeys doc → recur st' n' s' ≠ none)
    (s : Json) : create_data_type_step doc recur st n s ≠ none := by
  unfold create_data_type_step
  split
  · simp
  · dsimp only
    split
    · simp
    · split
      · simp
      · rcases hp : create_data_types_for_properties doc recur
            { st with data_types := st.data_types ++ [n] } s with _ | r2
        · exact absurd hp (create_props_total doc (st.data_types ++ [n]) recur hrecDF hrecT
            { st with data_types := st.data_types ++ [n] } s (fun x hx => hx))
        · dsimp only
          split <;> simp

theorem create_data_total_aux (doc : Json) :
    ∀ (fuel : Nat) (st : SwaggerState) (n : String) (s : Json),
      n ∈ defKeys doc → unvisitedDefs doc st < fuel →
      create_data_type_from_schema doc fuel st n s ≠ none := by
  intro fuel
  induction fuel with
  | zero =>
    intro st n s hk hlt
    exact absurd hlt (Nat.not_lt_zero _)
  | succ f ih =>
    intro st n s hk hlt
    by_cases hmem : n ∈ st.data_types
    · rw [create_data_mem_noop doc f st n s hmem]
      simp
    · rw [create_data_type_from_schema]
      apply create_data_step_total doc _ st n (create_data_frame doc f)
      intro st' n' s' hsub hk'
      apply ih st' n' s' hk'
      have h1 := unvisitedDefs_insert_lt doc st n hk hmem
      have h2 := unvisitedDefs_mono doc
        { st with data_types := st.data_types ++ [n] } st' hsub
      omega

theorem create_data_total (doc : Json) (fuel : Nat) (st : SwaggerState)
    (n : String) (s : Json) (h : unvisitedDefs doc st + 2 ≤ fuel) :
    create_data_type_from_schema doc fuel st n s ≠ none := by
  rcases fuel with _ | f
  · exact absurd h (by omega)
  · by_cases hmem : n ∈ st.data_types
    · rw [create_data_mem_noop doc f st n s hmem]
      simp
    · rw [create_data_type_from_schema]
      apply create_data_step_total doc _ st n (create_data_frame doc f)
      intro st' n' s' hsub hk'
      apply create_data_total_aux doc f st' n' s' hk'
      have h2 := unvisitedDefs_mono doc
        { st with data_types := st.data_types ++ [n] } st' hsub
      have h3 : unvisitedDefs doc { st with data_types := st.data_types ++ [n] }
          ≤ unvisitedDefs doc st :=
        unvisitedDefs_mono doc st _ (fun x hx => List.mem_append_left _ hx)
      omega

/-- **C10**: both materializers insert the schema name into their visited
set before any validation: after any call the name is in the corresponding
set; a call whose name is already visited returns immediately with the state
unchanged; a node schema without a `type` key, and a data schema that is a
bare `$ref`, are rejected without a record yet still mark the name visited,
so the name can never produce a record later in the run. -/
theorem c10_visited_before_validation (doc : Json) (fuel : Nat)
    (st : SwaggerState) (n : String) (s : Json) :
    n ∈ (create_node_type_from_schema st n s).1.node_types ∧
    (n ∈ st.node_types → create_node_type_from_schema st n s = (st, none)) ∧
    (n ∉ st.node_types → s.get? "type" = none →
      create_node_type_from_schema st n s
        = ({ st with node_types := st.node_types ++ [n] }, none)) ∧
    (∀ r, create_data_type_from_schema doc fuel st n s = some r →
      n ∈ r.1.data_types) ∧
    (n ∈ st.data_types →
      create_data_type_from_schema doc (fuel + 1) st n s = some (st, none)) ∧
    (∀ rv, n ∉ st.data_types → s.get? "$ref" = some rv →
      create_data_type_from_schema doc (fuel + 1) st n s
        = some ({ st with data_types := st.data_types ++ [n] }, none)) :=
  ⟨create_node_visited st n s,
   fun h => create_node_mem_noop st n s h,
   fun h1 h2 => create_node_no_type st n s h1 h2,
   fun r h => create_data_visited doc fuel st n s r h,
   fun h => create_data_mem_noop doc fuel st n s h,
   fun rv h1 h2 => create_data_bare_ref doc fuel st n s h1 rv h2⟩

theorem c10_witness :
    create_node_type_from_schema ⟨["A"], [], [], []⟩ "A" (Json.obj [])
      = (⟨["A"], [], [], []⟩, none) ∧
    create_node_type_from_schema ⟨[], [], [], []⟩ "A" (Json.obj [])
      = (⟨["A"], [], [], []⟩, none) ∧
    create_data_type_from_schema (Json.obj []) 1 ⟨[], ["A"], [], []⟩ "A" (Json.obj [])
      = some (⟨[], ["A"], [], []⟩, none) ∧
    create_data_type_from_schema (Json.obj []) 1 ⟨[], [], [], []⟩ "A" (ref_json "B")
      = some (⟨[], ["A"], [], []⟩, none) := by
  refine ⟨?_, ?_, ?_, ?_⟩
  · exact (c10_visited_before_validation (Json.obj []) 0
      ⟨["A"], [], [], []⟩ "A" (Json.obj [])).2.1 (by simp)
  · exact (c10_visited_before_validation (Json.obj []) 0
      ⟨[], [], [], []⟩ "A" (Json.obj [])).2.2.1 (by simp) rfl
  · exact (c10_visited_before_validation (Json.obj []) 0
      ⟨[], ["A"], [], []⟩ "A" (Json.obj [])).2.2.2.2.1 (by simp)
  · exact (c10_visited_before_validation (Json.obj []) 0
      ⟨[], [], [], []⟩ "A" (ref_json "B")).2.2.2.2.2
      (Json.str "#/definitions/B") (by simp) rfl

/-- **C1** (corrected): the second call with the same schema name is a
no-op — it returns the state unchanged, emitting nothing and changing no
profile — and emitted records never outnumber visited names; but the pair
of calls does not always produce exactly one record for the name
(`c1_counterexample` produces zero). -/
theorem c1_repeat_materialization (doc : Json) (fuel : Nat) (st : SwaggerState)
    (n : String) (s s2 : Json) :
    (∀ st1 e, create_node_type_from_schema st n s = (st1, e) →
      create_node_type_from_schema st1 n s2 = (st1, none) ∧
      totalNodeRecords st1 ≤ totalNodeRecords st + 1) ∧
    (∀ r, create_data_type_from_schema doc fuel st n s = some r →
      create_data_type_from_schema doc (fuel + 1) r.1 n s2 = some (r.1, none) ∧
      totalDataRecords r.1 + st.data_types.length
        ≤ totalDataRecords st + r.1.data_types.length) := by
  constructor
  · intro st1 e h
    have hv := create_node_visited st n s
    rw [h] at hv
    have hf := create_node_frame st n s (st1, e) h
    refine ⟨create_node_mem_noop st1 n s2 hv, ?_⟩
    have h1 : st1.node_types.length ≤ st.node_types.length + 1 := hf.2.2.1
    have h2 : totalNodeRecords st1 + st.node_types.length
        ≤ totalNodeRecords st + st1.node_types.length := hf.2.2.2.1
    omega
  · intro r h
    have hv := create_data_visited doc fuel st n s r h
    have hf := create_data_frame doc fuel st n s r h
    exact ⟨create_data_mem_noop doc fuel r.1 n s2 hv, hf.2.2.2.2⟩

theorem c1_counterexample :
    create_node_type_from_schema ⟨[], [], [], []⟩ "A" (Json.obj [])
      = (⟨["A"], [], [], []⟩, none) ∧
    create_node_type_from_schema ⟨["A"], [], [], []⟩ "A" (Json.obj [])
      = (⟨["A"], [], [], []⟩, none) ∧
    totalNodeRecords ⟨["A"], [], [], []⟩ = 0 :=
  ⟨rfl, rfl, rfl⟩

theorem c1_witness :
    create_node_type_from_schema ⟨["B"], [], [], []⟩ "B" Json.null
      = (⟨["B"], [], [], []⟩, none) ∧
    totalNodeRecords ⟨["B"], [], [], []⟩
      ≤ totalNodeRecords ⟨[], [], [], []⟩ + 1 :=
  (c1_repeat_materialization Json.null 0 ⟨[], [], [], []⟩ "B" Json.null Json.null).1
    ⟨["B"], [], [], []⟩ none rfl

/-- **C3** (corrected): the record-count half of the invariant holds — when
every visited name accounts for at most one emitted record, this is
preserved by node-type creation, by data-type creation, and by the whole
definitions pass — but the disjointness half is false
(`c3_counterexample` drives one name into both visited sets). -/
theorem c3_records_bounded_invariant (doc : Json) (fuel : Nat)
    (st : SwaggerState) (h : recordsBounded st) :
    (∀ n s, recordsBounded (create_node_type_from_schema st n s).1) ∧
    (∀ n s r, create_data_type_from_schema doc fuel st n s = some r →
      recordsBounded r.1) ∧
    (∀ r, process_definitions doc fuel st = some r → recordsBounded r.1) := by
  obtain ⟨hN, hD⟩ := h
  refine ⟨?_, ?_, ?_⟩
  · intro n s
    have hf := create_node_frame st n s _ rfl
    constructor
    · have h1 := hf.2.2.2.1
      have h2 := hf.1.length_le
      omega
    · rw [hf.2.2.2.2, hf.2.1]
      exact hD
  · intro n s r hc
    obtain ⟨a, b, c, d, e⟩ := create_data_frame doc fuel st n s r hc
    constructor
    · rw [b, totalNode_of_pexcD st r.1 d]
      exact hN
    · have h1 := a.length_le
      omega
  · intro r hc
    unfold process_definitions at hc
    obtain ⟨a, b, c, d, e⟩ := process_loop_frame doc fuel st.definitions st r hc
    constructor
    · rw [b, totalNode_of_pexcD st r.1 d]
      exact hN
    · have h1 := a.length_le
      omega

theorem c3_counterexample :
    create_node_type_from_schema c3_start "A" self_ref_schema = (c3_mid, none) ∧
    process_definitions self_ref_doc 2 c3_mid = some (c3_final, some .nameError) ∧
    "A" ∈ c3_final.node_types ∧ "A" ∈ c3_final.data_types :=
  ⟨rfl, rfl, by simp [c3_final], by simp [c3_final]⟩

theorem c3_witness :
    recordsBounded (⟨[], [], [], []⟩ : SwaggerState) ∧
    recordsBounded (create_node_type_from_schema ⟨[], [], [], []⟩ "A" (Json.obj [])).1 :=
  ⟨⟨Nat.le_refl 0, Nat.le_refl 0⟩,
   (c3_records_bounded_invariant (Json.obj []) 1 ⟨[], [], [], []⟩
     ⟨Nat.le_refl 0, Nat.le_refl 0⟩).1 "A" (Json.obj [])⟩

/-- **C2** (corrected): on every document — cyclic property references
included — the data-type materializer terminates once its recursion budget
exceeds the number of unvisited definition keys by two (each recursive call
shrinks that measure), and emitted data records never outnumber visited
schemas (at most one record per distinct schema); exactly one record per
cycle member is refuted by `c2_counterexample`. -/
theorem c2_cycle_termination (doc : Json) (fuel : Nat) (st : SwaggerState)
    (n : String) (s : Json) (h : unvisitedDefs doc st + 2 ≤ fuel) :
    ∃ r, create_data_type_from_schema doc fuel st n s = some r ∧
      st.data_types <+: r.1.data_types ∧
      totalDataRecords r.1 + st.data_types.length
        ≤ totalDataRecords st + r.1.data_types.length := by
  rcases hr : create_data_type_from_schema doc fuel st n s with _ | r
  · exact absurd hr (create_data_total doc fuel st n s h)
  · obtain ⟨a, b, c, d, e⟩ := create_data_frame doc fuel st n s r hr
    exact ⟨r, rfl, a, e⟩

theorem c2_counterexample :
    create_data_type_from_schema c2_doc 4 c2_start "p.v2.A" c2_sA
      = some ({ c2_start with data_types := ["p.v2.A"] }, none) ∧
    totalDataRecords { c2_start with data_types := ["p.v2.A"] } = 0 :=
  ⟨rfl, rfl⟩

theorem c2_witness :
    unvisitedDefs c2_doc c2_start + 2 ≤ 4 ∧
    ∃ r, create_data_type_from_schema c2_doc 4 c2_start "p.v2.A" c2_sA = some r ∧
      c2_start.data_types <+: r.1.data_types ∧
      totalDataRecords r.1 + c2_start.data_types.length
        ≤ totalDataRecords c2_start + r.1.data_types.length :=
  ⟨by decide, c2_cycle_termination c2_doc 4 c2_start "p.v2.A" c2_sA (by decide)⟩
